import Mathlib

/-
Shallow embedding of the Expense-Tracker-Backend ingestion pipeline.
Source files embedded here: src/utils/emailParser.js,
src/services/gmailServices.js, src/routes/emails.js, the classification
and extraction services, the mongoose Email / Transaction / User models
and the auth middleware. JavaScript values are modelled by the JsVal
type with explicit truthiness; thrown JavaScript exceptions are modelled
with Except. External collaborators (axios network calls, the
html-to-text convert function) are explicit parameters.
-/

/-- JNum models a JavaScript number as the exact decimal fixed-point
value m / 10^e. Every number the pipeline handles is a decimal literal,
so this representation is exact; each function that builds a JNum keeps
it canonical (e = 0, or m not divisible by 10), so structural equality
coincides with numeric equality on every value the embedding produces. -/
structure JNum where
  m : Int
  e : Nat
  deriving Repr, DecidableEq

/-- Power of ten as an integer, by structural recursion so that the
kernel evaluates it. -/
def pow10 : Nat → Int
  | 0 => 1
  | n + 1 => 10 * pow10 n

/-- Strict positivity of a JNum. -/
def JNum.pos (a : JNum) : Bool := decide (0 < a.m)

/-- Comparison against one half: m / 10^e > 1/2 iff 2m > 10^e. -/
def JNum.gtHalf (a : JNum) : Bool := decide (pow10 a.e < 2 * a.m)

/-- Absolute value of a JNum. -/
def JNum.abs (a : JNum) : JNum := ⟨|a.m|, a.e⟩

/-- JsVal models the JavaScript values that flow through the pipeline:
strings, numbers, booleans, arrays, plain objects as association lists,
Date objects carrying the parsed year, month and day, and the two falsy
non-values undefined and null. -/
inductive JsVal where
  | str : String → JsVal
  | num : JNum → JsVal
  | bool : Bool → JsVal
  | arr : List JsVal → JsVal
  | obj : List (String × JsVal) → JsVal
  | date : Nat → Nat → Nat → JsVal
  | undef : JsVal
  | nullv : JsVal
  deriving Repr

/-- JavaScript truthiness of a value. -/
def truthy : JsVal → Bool
  | .str s => s != ""
  | .num n => n.m != 0
  | .bool b => b
  | .arr _ => true
  | .obj _ => true
  | .date _ _ _ => true
  | .undef => false
  | .nullv => false

/-- Value of a key in an object, defaulting to undefined when the key is
missing. -/
def objLookup (kvs : List (String × JsVal)) (k : String) : JsVal :=
  ((kvs.find? (fun p => p.1 == k)).map Prod.snd).getD (.undef)

/-- Property access v[k] as performed by the source. Access on null or on
undefined throws a TypeError; a missing key on any other value yields
undefined (the primitives and arrays carry none of the keys the source
reads). -/
def getField : JsVal → String → Except String JsVal
  | .obj kvs, k => .ok (objLookup kvs k)
  | .nullv, _ => .error "TypeError: cannot read properties of null"
  | .undef, _ => .error "TypeError: cannot read properties of undefined"
  | _, _ => .ok (.undef)

/-- Short-circuit JavaScript disjunction a or-else b on values. -/
def jsOr (a b : JsVal) : JsVal := if truthy a then a else b

/-- Typeof test for numbers. -/
def jsIsNumber : JsVal → Bool
  | .num _ => true
  | _ => false

/-- Whitespace characters recognised by the JavaScript string functions
the source uses (trim, the regex class for whitespace). The exotic
Unicode space variants beyond these do not occur in the pipeline. -/
def jsWhitespaceChars : List Char :=
  [' ', '\t', '\n', '\r', '\x0B', '\x0C', '\u00A0', '\uFEFF', '\u2028', '\u2029']

/-- Whitespace test for one character. -/
def isJsWhitespace (c : Char) : Bool := jsWhitespaceChars.contains c

/-- Embeds String.prototype.trim, over the character list so that the
kernel evaluates it. -/
def jsTrim (s : String) : String :=
  ((s.toList.dropWhile isJsWhitespace).reverse.dropWhile isJsWhitespace).reverse.asString

/-- Embeds String.prototype.toLowerCase for the ASCII range; the labels
and merchant suffixes the source lowercases are ASCII. -/
def jsToLower (s : String) : String := (s.toList.map Char.toLower).asString

/-- Containment test on character lists, mirroring String.prototype.includes. -/
def listHasInfix (needle hay : List Char) : Bool :=
  match hay with
  | [] => needle.isEmpty
  | _ :: t => needle.isPrefixOf hay || listHasInfix needle t

/-- Containment test on strings, mirroring String.prototype.includes. -/
def strContains (hay needle : String) : Bool :=
  listHasInfix needle.toList hay.toList

/-- Keyword list of isTransactionalLabel in the classification service. -/
def transactionalKeywords : List String :=
  ["transactional", "transaction", "payment", "receipt", "invoice", "bill",
   "purchase", "order", "financial", "money", "charge", "paid", "refund",
   "1", "true"]

/-- Embeds isTransactionalLabel of the classification service: falsy or
non-string labels map to false, otherwise the lowercased label is tested
for containment of any keyword. -/
def isTransactionalLabel (label : JsVal) : Bool :=
  match label with
  | .str s =>
      if s == "" then false
      else transactionalKeywords.any (fun kw => strContains (jsToLower s) kw)
  | _ => false

/-- Output record of the classification client. The confidence is kept as
a JsVal because the source can propagate non-numeric field values into
it. -/
structure ClassResult where
  isTransactional : Bool
  confidence : JsVal
  error : Option String := none
  rawResponse : Option JsVal := none
  deriving Repr

/-- Body of parseClassificationResponse before its catch handler; property
accesses on null or undefined abort with a TypeError, which the catch
handler of the wrapper turns into a degraded result. -/
def parseCRInner (responseData : JsVal) : Except String ClassResult := do
  let fmt1 ← (match responseData with
    | .arr (prediction :: _) => do
        let lbl ← getField prediction "label"
        let sc ← getField prediction "score"
        pure (if truthy lbl && jsIsNumber sc then
                some { isTransactional := isTransactionalLabel lbl,
                       confidence := sc, rawResponse := some responseData }
              else none)
    | _ => pure (none : Option ClassResult))
  match fmt1 with
  | some r => return r
  | none =>
    let pred ← getField responseData "prediction"
    if truthy pred then
      let conf ← getField responseData "confidence"
      let sc ← getField responseData "score"
      return { isTransactional := isTransactionalLabel pred,
               confidence := jsOr (jsOr conf sc) (.num ⟨5, 1⟩),
               rawResponse := some responseData }
    else
      let lbl ← getField responseData "label"
      if truthy lbl then
        let conf ← getField responseData "confidence"
        let sc ← getField responseData "score"
        return { isTransactional := isTransactionalLabel lbl,
                 confidence := jsOr (jsOr conf sc) (.num ⟨5, 1⟩),
                 rawResponse := some responseData }
      else
        match responseData with
        | .bool b =>
            return { isTransactional := b, confidence := .num ⟨5, 1⟩,
                     rawResponse := some responseData }
        | .num n =>
            return { isTransactional := n.gtHalf, confidence := .num n.abs,
                     rawResponse := some responseData }
        | _ =>
            return { isTransactional := false, confidence := .num ⟨0, 0⟩,
                     error := some "Unknown response format",
                     rawResponse := some responseData }

/-- Embeds parseClassificationResponse of the classification service: the
format probing wrapped in the catch-all that degrades parse exceptions. -/
def parseClassificationResponse (responseData : JsVal) : ClassResult :=
  match parseCRInner responseData with
  | .ok r => r
  | .error _ =>
      { isTransactional := false, confidence := .num ⟨0, 0⟩,
        error := some "Response parsing failed", rawResponse := some responseData }

/-- Degraded result returned for empty classification input. -/
def emptyContentResult : ClassResult :=
  { isTransactional := false, confidence := .num ⟨0, 0⟩, error := some "Empty content" }

/-- Retry loop of classifyEmail. The network is a parameter: net a p is
the outcome of the HTTP post of payload p issued on 1-based attempt a,
either a response body or a thrown axios error message. The second
component of the result is the number of network calls issued. -/
def classifyAttempts (net : Nat → String → Except String JsVal) (payload : String) :
    Nat → Nat → ClassResult × Nat
  | 0, attempt =>
      ({ isTransactional := false, confidence := .num ⟨0, 0⟩ }, attempt - 1)
  | fuel + 1, attempt =>
    match net attempt payload with
    | .ok data => (parseClassificationResponse data, attempt)
    | .error e =>
      if fuel = 0 then
        ({ isTransactional := false, confidence := .num ⟨0, 0⟩, error := some e }, attempt)
      else
        classifyAttempts net payload fuel (attempt + 1)

/-- Embeds classifyEmail of the classification service. Throws when the
service URL is unconfigured, and also when the argument is a truthy
non-string, because emailContent.trim is then not a function; the email
parser in src passes an object here (see parseEmailBody). On a string it
short-circuits on empty or whitespace-only content without any network
call, otherwise posts the first 10000 characters with up to three
attempts. Returns the result together with the network call count. -/
def classifyEmail (serviceUrl : Option String) (emailContent : JsVal)
    (net : Nat → String → Except String JsVal) : Except String (ClassResult × Nat) := do
  if serviceUrl.isNone then
    throw "Classification service URL not configured"
  if !(truthy emailContent) then
    return (emptyContentResult, 0)
  match emailContent with
  | .str s =>
    if jsTrim s = "" then
      return (emptyContentResult, 0)
    else
      return classifyAttempts net (s.take 10000) 3 1
  | _ => throw "TypeError: emailContent.trim is not a function"

example :
    parseClassificationResponse (.arr [.obj [("label", .str "payment_receipt"), ("score", .num ⟨92, 2⟩)]])
      = { isTransactional := true, confidence := .num ⟨92, 2⟩,
          rawResponse := some (.arr [.obj [("label", .str "payment_receipt"), ("score", .num ⟨92, 2⟩)]]) } := by
  rfl

example : parseClassificationResponse (.num ⟨2, 0⟩)
    = { isTransactional := true, confidence := .num ⟨2, 0⟩, rawResponse := some (.num ⟨2, 0⟩) } := by
  rfl

example : classifyEmail (some "u") (.str "   ") (fun _ _ => .error "down")
    = .ok (emptyContentResult, 0) := by rfl

example : classifyEmail (some "u") (.obj [("body", .str "b")]) (fun _ _ => .error "down")
    = .error "TypeError: emailContent.trim is not a function" := by rfl

/-- Decimal digits of a natural number, most significant first, with
explicit fuel so the recursion is structural. -/
def natDigitsAux : Nat → Nat → List Char
  | 0, _ => []
  | _, 0 => []
  | fuel + 1, n => natDigitsAux fuel (n / 10) ++ [Char.ofNat (48 + n % 10)]

/-- Decimal digit list of a natural number. -/
def natToDigits (n : Nat) : List Char :=
  if n = 0 then ['0'] else natDigitsAux (n + 1) n

/-- Decimal rendering of a JNum, matching how JavaScript prints the
decimal numbers handled by the pipeline (no scientific notation). -/
def jsNumToString (a : JNum) : String :=
  let digits := natToDigits a.m.natAbs
  let digits := List.replicate (a.e + 1 - digits.length) '0' ++ digits
  let whole := digits.take (digits.length - a.e)
  let frac := digits.drop (digits.length - a.e)
  let core := if a.e = 0 then whole else whole ++ '.' :: frac
  (if a.m < 0 then '-' :: core else core).asString

/-- Embeds the String(x) conversion for the value shapes the extraction
service can receive in its fields. Arrays and nested objects never carry
amounts or merchants in the service contract; their conversions are the
generic JavaScript ones. -/
def jsToStringVal : JsVal → String
  | .str s => s
  | .num n => jsNumToString n
  | .bool b => if b then "true" else "false"
  | .undef => "undefined"
  | .nullv => "null"
  | .arr _ => ""
  | .obj _ => "[object Object]"
  | .date _ _ _ => "[date]"

/-- Characters removed by the cleaning regex of parseAmount: the listed
currency symbols, the comma, and whitespace. -/
def currencyOrSep (c : Char) : Bool :=
  c == '$' || c == '€' || c == '£' || c == '¥' || c == '₹' || c == ',' || isJsWhitespace c

/-- First match of the numeric-token regex (digits, one optional point,
optional further digits) in a character list: the leftmost digit starts
the match, the digit run is taken greedily, then an optional point and
the following digit run. -/
def firstNumToken : List Char → Option (List Char)
  | [] => none
  | c :: rest =>
    if c.isDigit then
      let ds := (c :: rest).takeWhile Char.isDigit
      let after := (c :: rest).dropWhile Char.isDigit
      match after with
      | '.' :: r2 => some (ds ++ '.' :: r2.takeWhile Char.isDigit)
      | _ => some ds
    else firstNumToken rest

/-- Natural number denoted by a digit list. -/
def digitsToNat (cs : List Char) : Nat :=
  cs.foldl (fun a c => 10 * a + (c.toNat - 48)) 0

/-- Value of a numeric token as produced by parseFloat: the digits before
the optional point form the integer part, the digits after it the
fraction. Trailing zero fraction digits are dropped so the result is the
canonical JNum of the parsed value. -/
def tokenToJNum (tok : List Char) : JNum :=
  let intPart := tok.takeWhile Char.isDigit
  let fracPart := (tok.dropWhile Char.isDigit).drop 1
  let frac := (fracPart.reverse.dropWhile (· == '0')).reverse
  ⟨(digitsToNat (intPart ++ frac) : Nat), frac.length⟩

/-- Embeds parseAmount of the extraction service: falsy input is null,
otherwise the string rendering is cleaned of currency symbols, commas and
whitespace, the first numeric token is parsed, and only strictly positive
values are kept. Nothing in the body can throw for the value shapes
handled, so the catch handler of the source is unreachable. -/
def parseAmount (amountStr : JsVal) : Option JNum :=
  if !(truthy amountStr) then none
  else
    let cleaned := (jsToStringVal amountStr).toList.filter (fun c => !(currencyOrSep c))
    match firstNumToken cleaned with
    | some tok => let a := tokenToJNum tok; if a.pos then some a else none
    | none => none

/-- Day count of a month, used by the strict ISO branch of the native
date parser model. -/
def daysInMonth (y m : Nat) : Nat :=
  if m = 2 then (if (y % 4 = 0 && y % 100 != 0) || y % 400 = 0 then 29 else 28)
  else if m = 4 || m = 6 || m = 9 || m = 11 then 30 else 31

/-- Splitting of a character list at a separator character. -/
def splitOnChar (sep : Char) (cs : List Char) : List (List Char) :=
  cs.foldr (fun c acc =>
    match acc with
    | g :: gs => if c == sep then [] :: g :: gs else (c :: g) :: gs
    | [] => [[c]]) [[]]

/-- Models the portion of the native JavaScript date constructor that the
source exercises: strict ISO YYYY-MM-DD dates with calendar validation,
and the legacy US forms M/D/YYYY and M-D-YYYY with month 1..12 and day
1..31. The model stores the textual components; the legacy day rollover
of out-of-range days is not modelled, since no input of this repository
relies on it, and other input shapes are modelled as Invalid Date. -/
def jsNewDate (s : String) : Option (Nat × Nat × Nat) :=
  let cs := s.toList
  let iso :=
    match splitOnChar '-' cs with
    | [ys, ms, ds] =>
      if ys.length = 4 && ms.length = 2 && ds.length = 2 && (ys ++ ms ++ ds).all Char.isDigit then
        let y := digitsToNat ys
        let mo := digitsToNat ms
        let d := digitsToNat ds
        if 1 ≤ mo && mo ≤ 12 && 1 ≤ d && d ≤ daysInMonth y mo then some (y, mo, d) else none
      else none
    | _ => none
  let legacy (sep : Char) : Option (Nat × Nat × Nat) :=
    match splitOnChar sep cs with
    | [ms, ds, ys] =>
      if 1 ≤ ms.length && ms.length ≤ 2 && 1 ≤ ds.length && ds.length ≤ 2 && ys.length = 4 &&
         (ms ++ ds ++ ys).all Char.isDigit then
        let mo := digitsToNat ms
        let d := digitsToNat ds
        let y := digitsToNat ys
        if 1 ≤ mo && mo ≤ 12 && 1 ≤ d && d ≤ 31 then some (y, mo, d) else none
      else none
    | _ => none
  (iso.orElse fun _ => (legacy '/').orElse fun _ => legacy '-')

/-- Native date parsing of a JsVal argument: strings go through the
parser model and an existing Date is copied; the remaining shapes the
source never passes are modelled as Invalid Date. -/
def jsNewDateVal : JsVal → Option (Nat × Nat × Nat)
  | .str s => jsNewDate s
  | .date y m d => some (y, m, d)
  | _ => none

/-- Exactly n digits at the head of a character list. -/
def matchDigits (n : Nat) (cs : List Char) : Option (List Char × List Char) :=
  let ds := cs.take n
  if ds.length = n && ds.all Char.isDigit then some (ds, cs.drop n) else none

/-- Greedy one-or-two-digit group: the two-digit reading is tried before
the one-digit reading, as the backtracking regex does. -/
def matchGroup12 (cs : List Char) : List (List Char × List Char) :=
  (match matchDigits 2 cs with | some r => [r] | none => []) ++
  (match matchDigits 1 cs with | some r => [r] | none => [])

/-- Match of the pattern digits{1,2} sep digits{1,2} sep digits{4} at the
head of a character list. -/
def matchMDYAt (sep : Char) (cs : List Char) : Option (List Char) :=
  (matchGroup12 cs).findSome? fun p1 =>
    match p1.2 with
    | c :: r1 =>
      if c == sep then
        (matchGroup12 r1).findSome? fun p2 =>
          match p2.2 with
          | c2 :: r2 =>
            if c2 == sep then
              match matchDigits 4 r2 with
              | some (d3, _) => some (p1.1 ++ sep :: p2.1 ++ sep :: d3)
              | none => none
            else none
          | [] => none
      else none
    | [] => none

/-- Match of the pattern digits{4} - digits{1,2} - digits{1,2} at the
head of a character list. -/
def matchISOAt (cs : List Char) : Option (List Char) :=
  match matchDigits 4 cs with
  | some (d1, r0) =>
    (match r0 with
     | c :: r1 =>
       if c == '-' then
         (matchGroup12 r1).findSome? fun p2 =>
           match p2.2 with
           | c2 :: r2 =>
             if c2 == '-' then
               (matchGroup12 r2).findSome? fun p3 =>
                 some (d1 ++ '-' :: p2.1 ++ '-' :: p3.1)
             else none
           | [] => none
       else none
     | [] => none)
  | none => none

/-- Leftmost match of a head-anchored pattern in a character list. -/
def scanFor (f : List Char → Option (List Char)) : List Char → Option (List Char)
  | [] => none
  | c :: t =>
    match f (c :: t) with
    | some r => some r
    | none => scanFor f t

/-- Second phase of parseDate: the three textual patterns are tried in
source order, each found match is handed back to the native parser, and
an invalid parse falls through to the next pattern. -/
def tryDateFormats : List (Option (List Char)) → JsVal
  | [] => .nullv
  | none :: rest => tryDateFormats rest
  | some tok :: rest =>
    match jsNewDate tok.asString with
    | some (y, mo, d) => .date y mo d
    | none => tryDateFormats rest

/-- Embeds parseDate of the extraction service: falsy input is null;
otherwise the native parse is attempted first, then the three fixed
textual patterns in order; a date failing all of them is null. -/
def parseDate (dateStr : JsVal) : JsVal :=
  if !(truthy dateStr) then .nullv
  else
    match jsNewDateVal dateStr with
    | some (y, mo, d) => .date y mo d
    | none =>
      let cs := (jsToStringVal dateStr).toList
      tryDateFormats
        [scanFor (matchMDYAt '/') cs, scanFor matchISOAt cs, scanFor (matchMDYAt '-') cs]

/-- Leading tokens stripped from a merchant string, in the alternation
order of the source regex. -/
def merchantLeadTokens : List String := ["from", "to", "at", "@"]

/-- Trailing corporate suffixes stripped from a merchant string, in the
alternation order of the source regex. -/
def merchantSuffixTokens : List String := ["inc", "llc", "ltd", "corp", "co"]

/-- Removal of one leading from, to, at or @ token followed by at least
one whitespace character, case-insensitively, as the first merchant
replace does. -/
def stripLeadingMerchantToken (cs : List Char) : List Char :=
  match merchantLeadTokens.findSome? (fun tok =>
    let n := tok.length
    if ((cs.take n).map Char.toLower).asString == tok then
      match cs.drop n with
      | r0 :: rt =>
        if isJsWhitespace r0 then some ((r0 :: rt).dropWhile isJsWhitespace) else none
      | [] => none
    else none) with
  | some r => r
  | none => cs

/-- Removal of one trailing corporate suffix with an optional final dot,
preceded by at least one whitespace character, case-insensitively, as the
second merchant replace does. The match is necessarily anchored at the
end of the string, so it is computed from the right. -/
def stripTrailingMerchantSuffix (cs : List Char) : List Char :=
  let rcs := cs.reverse
  let afterDot := match rcs with | '.' :: t => t | _ => rcs
  match merchantSuffixTokens.findSome? (fun tok =>
    let rtok := tok.toList.reverse
    let n := rtok.length
    if (afterDot.take n).map Char.toLower == rtok then
      match afterDot.drop n with
      | r0 :: rt =>
        if isJsWhitespace r0 then some (((r0 :: rt).dropWhile isJsWhitespace).reverse) else none
      | [] => none
    else none) with
  | some r => r
  | none => cs

/-- Embeds parseMerchant of the extraction service: falsy input is null,
otherwise the trimmed string has one leading token and one trailing
corporate suffix stripped and is trimmed again; an empty result is null. -/
def parseMerchant (merchantStr : JsVal) : JsVal :=
  if !(truthy merchantStr) then .nullv
  else
    let s := jsTrim (jsToStringVal merchantStr)
    let cleaned := jsTrim (stripTrailingMerchantSuffix (stripLeadingMerchantToken s.toList)).asString
    if cleaned.length > 0 then .str cleaned else .nullv

/-- Total field access used only where the source has already
established that the receiver cannot be null or undefined. -/
def getFieldD (v : JsVal) (k : String) : JsVal :=
  ((getField v k).toOption).getD (.undef)

/-- Loop body of parseExtractionResponse for one result item: a falsy
item success flag or a non-positive amount skips the item, otherwise one
candidate record is appended to the accumulator; field access on a null
or undefined item throws. -/
def parseERItem (responseData : JsVal) (acc : List JsVal) (item : JsVal) :
    Except String (List JsVal) := do
  let isuccess ← getField item "success"
  if !(truthy isuccess) then
    return acc
  let amtField ← getField item "final_amount"
  match parseAmount amtField with
  | none => return acc
  | some amount => do
      let dateField ← getField item "transaction_date"
      let typeField ← getField item "transaction_type"
      let merchField ← getField item "merchant"
      return acc ++ [JsVal.obj [("amount", .num amount),
                                ("date", parseDate dateField),
                                ("type", typeField),
                                ("merchant", parseMerchant merchField),
                                ("rawResponse", responseData)]]

/-- Body of parseExtractionResponse before its catch handler: a falsy
top-level success flag yields null, then each result item with a truthy
success flag and a positive parsed amount contributes one candidate and
every other item is skipped. Iterating a missing results field or
reading fields of a null item throws, which the catch handler degrades. -/
def parseERInner (responseData : JsVal) : Except String JsVal := do
  let success ← getField responseData "success"
  if !(truthy success) then
    return .nullv
  let resultsField ← getField responseData "results"
  match resultsField with
  | .arr items => do
      let results ← items.foldlM (parseERItem responseData) []
      return .arr results
  | _ => throw "TypeError: extractedData.results is not iterable"

/-- Degraded object returned by the catch handler of
parseExtractionResponse. -/
def extractionParseFailure (responseData : JsVal) : JsVal :=
  .obj [("amount", .nullv), ("date", .nullv), ("type", .nullv), ("merchant", .nullv),
        ("error", .str "Response parsing failed"), ("rawResponse", responseData)]

/-- Embeds parseExtractionResponse of the extraction service: the body
wrapped in the catch-all that degrades parse exceptions. -/
def parseExtractionResponse (responseData : JsVal) : JsVal :=
  match parseERInner responseData with
  | .ok v => v
  | .error _ => extractionParseFailure responseData

/-- Empty-content sentinel of extractTransaction. -/
def emptyExtractionResult : JsVal :=
  .obj [("amount", .nullv), ("currency", .nullv), ("date", .nullv), ("type", .nullv),
        ("merchant", .nullv), ("confidence", .num ⟨0, 0⟩), ("error", .str "Empty content")]

/-- Degraded sentinel of extractTransaction after the final failed
attempt. -/
def extractionErrorResult (e : String) : JsVal :=
  .obj [("amount", .nullv), ("currency", .nullv), ("date", .nullv), ("type", .nullv),
        ("merchant", .nullv), ("confidence", .num ⟨0, 0⟩), ("error", .str e)]

/-- Retry loop of extractTransaction, with the posted content forwarded
unmodified as the request body, as the source does. -/
def extractAttempts (net : Nat → JsVal → Except String JsVal) (content : JsVal) :
    Nat → Nat → JsVal
  | 0, _ => .undef
  | fuel + 1, attempt =>
    match net attempt content with
    | .ok data => parseExtractionResponse data
    | .error e =>
      if fuel = 0 then extractionErrorResult e
      else extractAttempts net content fuel (attempt + 1)

/-- Embeds extractTransaction of the extraction service: throws when the
service URL is unconfigured, short-circuits falsy content to the empty
sentinel, and otherwise posts the content with up to three attempts. -/
def extractTransaction (serviceUrl : Option String) (emailContent : JsVal)
    (net : Nat → JsVal → Except String JsVal) : Except String JsVal := do
  if serviceUrl.isNone then
    throw "Extraction service URL not configured"
  if !(truthy emailContent) then
    return emptyExtractionResult
  return extractAttempts net emailContent 3 1

example : parseAmount (.str "$1,234.50") = some ⟨12345, 1⟩ := rfl
example : parseAmount (.str "0") = none := rfl
example : parseMerchant (.str "Acme Inc.") = .str "Acme" := rfl
example : parseMerchant (.str "   ") = .nullv := rfl
example : parseDate (.str "2024-03-01") = .date 2024 3 1 := rfl
example : parseDate (.str "bought on 03/15/2024 ok") = .date 2024 3 15 := rfl

/-- Index of a character in the standard base64 alphabet. -/
def b64Idx (c : Char) : Option Nat :=
  if 'A' ≤ c && c ≤ 'Z' then some (c.toNat - 65)
  else if 'a' ≤ c && c ≤ 'z' then some (c.toNat - 97 + 26)
  else if '0' ≤ c && c ≤ '9' then some (c.toNat - 48 + 52)
  else if c == '+' then some 62
  else if c == '/' then some 63
  else none

/-- Byte list of a base64 index list: four 6-bit indices give three
bytes, a tail of two or three indices gives one or two bytes, and a
single leftover index gives nothing, matching the lenient Node decoder. -/
def b64Bytes : List Nat → List Nat
  | a :: b :: c :: d :: rest =>
      (a * 4 + b / 16) :: (b % 16 * 16 + c / 4) :: (c % 4 * 64 + d) :: b64Bytes rest
  | [a, b] => [a * 4 + b / 16]
  | [a, b, c] => [a * 4 + b / 16, b % 16 * 16 + c / 4]
  | _ => []

/-- Continuation-byte test of the UTF-8 decoder. -/
def isCont (b : Nat) : Bool := 128 ≤ b && b < 192

/-- UTF-8 decoding of a byte list with replacement-character substitution
for invalid sequences, as the Node buffer-to-string conversion performs.
The fuel parameter, initialised to the byte count, only serves structural
termination: every step consumes at least one byte. -/
def utf8DecodeAux : Nat → List Nat → List Char
  | 0, _ => []
  | fuel + 1, bytes =>
    match bytes with
    | [] => []
    | b :: rest =>
      if b < 128 then Char.ofNat b :: utf8DecodeAux fuel rest
      else if 192 ≤ b && b < 224 then
        match rest with
        | c1 :: r =>
          if isCont c1 then
            let cp := (b - 192) * 64 + (c1 - 128)
            (if cp < 128 then '�' else Char.ofNat cp) :: utf8DecodeAux fuel r
          else '�' :: utf8DecodeAux fuel rest
        | [] => ['�']
      else if 224 ≤ b && b < 240 then
        match rest with
        | c1 :: c2 :: r =>
          if isCont c1 && isCont c2 then
            let cp := (b - 224) * 4096 + (c1 - 128) * 64 + (c2 - 128)
            (if cp < 2048 || (55296 ≤ cp && cp < 57344) then '�' else Char.ofNat cp)
              :: utf8DecodeAux fuel r
          else '�' :: utf8DecodeAux fuel rest
        | _ => '�' :: utf8DecodeAux fuel rest
      else if 240 ≤ b && b < 248 then
        match rest with
        | c1 :: c2 :: c3 :: r =>
          if isCont c1 && isCont c2 && isCont c3 then
            let cp := (b - 240) * 262144 + (c1 - 128) * 4096 + (c2 - 128) * 64 + (c3 - 128)
            (if cp < 65536 || 1114111 < cp then '�' else Char.ofNat cp) :: utf8DecodeAux fuel r
          else '�' :: utf8DecodeAux fuel rest
        | _ => '�' :: utf8DecodeAux fuel rest
      else '�' :: utf8DecodeAux fuel rest

/-- UTF-8 decoding of a byte list. -/
def utf8Decode (bytes : List Nat) : List Char := utf8DecodeAux bytes.length bytes

/-- Embeds decodeBase64 of the email parser: the URL-safe characters are
remapped to the standard alphabet, then the buffer decode (lenient:
characters outside the alphabet, including padding, are skipped) and the
UTF-8 conversion. The Node decoder does not throw on string input, so
the catch handler of the source is unreachable and the function is
total. -/
def decodeBase64 (base64String : String) : String :=
  let normalized := base64String.toList.map
    (fun c => if c == '-' then '+' else if c == '_' then '/' else c)
  (utf8Decode (b64Bytes (normalized.filterMap b64Idx))).asString

/-- Node of a Gmail message payload tree: MIME type, optional body
object with an optional data field, and child parts. -/
inductive PartNode where
  | node : String → Option (Option String) → List PartNode → PartNode

/-- MIME type of a payload node. -/
def PartNode.mimeType : PartNode → String
  | .node mt _ _ => mt

/-- Body field of a payload node. -/
def PartNode.bodyData : PartNode → Option (Option String)
  | .node _ b _ => b

/-- Child parts of a payload node. -/
def PartNode.parts : PartNode → List PartNode
  | .node _ _ ps => ps

/-- Truthiness of the chained guard body and body.data: the data string
is returned only when the body object exists and the data is a truthy
string. -/
def dataOfBody : Option (Option String) → Option String
  | some (some d) => if d != "" then some d else none
  | _ => none

mutual

/-- Contribution of one part to the extractFromParts accumulation: a
text/plain or text/html leaf with truthy data decodes it, a part with
children recurses, anything else contributes nothing. -/
def extractFromPart : PartNode → String × String
  | .node mt bd sub =>
    if mt == "text/plain" && (dataOfBody bd).isSome then
      ("", decodeBase64 ((dataOfBody bd).getD ""))
    else if mt == "text/html" && (dataOfBody bd).isSome then
      (decodeBase64 ((dataOfBody bd).getD ""), "")
    else if sub.isEmpty then ("", "")
    else extractFromParts sub

/-- Embeds extractFromParts of the email parser: plain and HTML bodies
are accumulated over the parts in document order as (htmlBody,
plainBody), decoding text/plain and text/html leaves with data and
recursing into parts that have children. -/
def extractFromParts : List PartNode → String × String
  | [] => ("", "")
  | p :: rest =>
    let contrib := extractFromPart p
    let restAcc := extractFromParts rest
    (contrib.1 ++ restAcc.1, contrib.2 ++ restAcc.2)

end

/-- Output record of parseEmailBody. The isTransactional field keeps the
raw JavaScript value left in the classification variable. -/
structure ParsedBody where
  body : String
  bodyPlain : String
  isTransactional : JsVal
  deriving Repr

/-- JavaScript object rendering of a classification result, the value
the classification variable would receive on a successful await. -/
def classResultToJs (r : ClassResult) : JsVal :=
  .obj ([("isTransactional", .bool r.isTransactional), ("confidence", r.confidence)] ++
        (match r.error with | some e => [("error", .str e)] | none => []) ++
        (match r.rawResponse with | some v => [("rawResponse", v)] | none => []))

/-- Embeds parseEmailBody of the email parser. The convert function of
the html-to-text library is the parameter cv; cfg and net configure the
classification client. A payload with a direct truthy body data decodes
it, duplicating it into the plain text when the MIME type is text/plain
and deriving the plain text through cv otherwise; a multipart payload
accumulates its parts. When neither branch produced text, the source
calls extractBodyRecursive, a function that is not defined anywhere in
the module, so the branch throws a ReferenceError that the catch handler
swallows, leaving both bodies empty and the classification false.
Otherwise classifyEmail receives an object with body, subject and sender
fields, on which it always throws (the service URL guard or the trim
TypeError), so the catch handler leaves the classification false while
the assigned bodies survive; the returned bodies are trimmed. The body
and plain-body assignment section of the function is the named pair
computation below, so that the theorems can speak about it. -/
def parseEmailBodyPair (cv : String → String) (payload : PartNode) : String × String :=
  match dataOfBody payload.bodyData with
  | some d =>
    let decodedBody := decodeBase64 d
    if payload.mimeType == "text/plain" then (decodedBody, decodedBody)
    else (decodedBody, cv decodedBody)
  | none =>
    if !payload.parts.isEmpty then
      let ep := extractFromParts payload.parts
      (if ep.1 != "" then ep.1 else ep.2,
       if ep.2 != "" then ep.2 else cv ep.1)
    else ("", "")

/-- Embeds parseEmailBody of the email parser: the body pair above,
then the classification call on an object argument, whose thrown error
the catch handler swallows leaving the classification false; the
returned bodies are trimmed. -/
def parseEmailBody (cv : String → String) (cfg : Option String)
    (net : Nat → String → Except String JsVal) (payload : PartNode)
    (subject sender : String) : ParsedBody :=
  let pair := parseEmailBodyPair cv payload
  let body := pair.1
  let bodyPlain := pair.2
  if body == "" && bodyPlain == "" then
    { body := "", bodyPlain := "", isTransactional := .bool false }
  else
    let classification :=
      match classifyEmail cfg
          (.obj [("body", .str (if bodyPlain != "" then bodyPlain else body)),
                 ("subject", .str subject), ("sender", .str sender)]) net with
      | .ok r => classResultToJs r.1
      | .error _ => .bool false
    { body := jsTrim body, bodyPlain := jsTrim bodyPlain, isTransactional := classification }

/-- Header lookup of fetchEmailDetails: case-insensitive name match with
empty default. -/
def getHeader (headers : List (String × String)) (name : String) : String :=
  match headers.find? (fun h => jsToLower h.1 == jsToLower name) with
  | some h => h.2
  | none => ""

/-- Raw Gmail message detail returned by the provider get call. -/
structure GmailMessage where
  id : String
  threadId : String
  payload : PartNode
  headers : List (String × String)
  labelIds : List String

/-- Email data record assembled by fetchEmailDetails. The fields named
from and to in the source are fromAddr and toAddr here, because from is
reserved in Lean. -/
structure EmailData where
  id : String
  threadId : String
  subject : String
  fromAddr : String
  toAddr : String
  date : JsVal
  body : String
  bodyPlain : String
  labels : List String
  isTransactional : JsVal

/-- Embeds fetchEmailDetails of the Gmail service applied to a fetched
provider response; now is the Date value the source constructs as the
default when the date header is absent, and an unparseable header is
kept as an Invalid Date object, modelled as a zero date. -/
def fetchEmailDetails (cv : String → String) (cfg : Option String)
    (net : Nat → String → Except String JsVal) (now : JsVal)
    (message : GmailMessage) : EmailData :=
  let subject := getHeader message.headers "Subject"
  let sender := getHeader message.headers "From"
  let recipient := getHeader message.headers "To"
  let dateStr := getHeader message.headers "Date"
  let parsed := parseEmailBody cv cfg net message.payload subject sender
  let date :=
    if dateStr == "" then now
    else match jsNewDate dateStr with
      | some (y, mo, d) => .date y mo d
      | none => .date 0 0 0
  { id := message.id
    threadId := message.threadId
    subject := if subject == "" then "No Subject" else subject
    fromAddr := if sender == "" then "Unknown Sender" else sender
    toAddr := recipient
    date := date
    body := parsed.body
    bodyPlain := parsed.bodyPlain
    labels := message.labelIds
    isTransactional := parsed.isTransactional }

/-- Batch recursion of fetchEmails with explicit fuel for structural
termination; every step consumes at least one outcome, so fuel
initialised to the list length is never exhausted. -/
def fetchEmailsBatchesAux : Nat → List (Except String EmailData) → List EmailData
  | 0, _ => []
  | _ + 1, [] => []
  | fuel + 1, d :: rest =>
    let batch := (d :: rest).take 10
    let kept := batch.filterMap (fun r =>
      match r with
      | .ok v => if truthy v.isTransactional then some v else none
      | .error _ => none)
    kept ++ fetchEmailsBatchesAux fuel (rest.drop 9)

/-- Batch loop of fetchEmails: the settled detail outcomes are consumed
in groups of ten, and within each group only fulfilled results whose
isTransactional field is truthy are collected, in order. -/
def fetchEmailsBatches (details : List (Except String EmailData)) : List EmailData :=
  fetchEmailsBatchesAux details.length details

/-- Embeds fetchEmails of the Gmail service. Authentication and the
message-id listing are external collaborators; the parameter msgs
carries, per listed message id, the outcome of the provider get call (a
rejection models a failed get, whose detail promise rejects and is
discarded by the allSettled filter). -/
def fetchEmails (cv : String → String) (cfg : Option String)
    (net : Nat → String → Except String JsVal) (now : JsVal)
    (msgs : List (Except String GmailMessage)) : List EmailData :=
  fetchEmailsBatches (msgs.map (fun r => r.map (fetchEmailDetails cv cfg net now)))

/-- Sync-relevant fields of the User model. -/
structure UserState where
  syncInProgress : Bool
  lastSyncDate : Option Nat
  totalEmails : Nat
  transactionalEmails : Nat
  deriving Repr, DecidableEq

/-- Embeds updateSyncStatus of the User model: stores the flag and
refreshes the last-sync timestamp only when the flag is cleared. -/
def updateSyncStatus (u : UserState) (inProgress : Bool) (now : Nat) : UserState :=
  if inProgress then { u with syncInProgress := true }
  else { u with syncInProgress := false, lastSyncDate := some now }

/-- Stored row of the Email collection; the unique gmailId is the dedup
key. -/
structure StoredEmail where
  gmailId : String
  data : EmailData

/-- Persistence loop of syncEmails: a message whose external id is
already stored is skipped and never overwritten, otherwise a new row is
appended; the second component counts the newly stored messages. The
persistence layer is modelled per its contract in the spec: saves of new
rows succeed. -/
def saveEmails : List EmailData → List StoredEmail → List StoredEmail × Nat
  | [], store => (store, 0)
  | d :: rest, store =>
    if store.any (fun e => e.gmailId == d.id) then saveEmails rest store
    else
      let next := saveEmails rest (store ++ [⟨d.id, d⟩])
      (next.1, next.2 + 1)

/-- Embeds syncEmails of the email routes, from the point where the
fetch outcome is known: on a fetch rejection the catch handler clears
the in-progress flag (and the route-level catch clears it again) before
rethrowing; on success the messages are stored with dedup by external
id, the total counter grows by the newly stored count, and the flag is
cleared. Either exit path ends with the flag cleared and the timestamp
refreshed. -/
def syncEmails (fetched : Except String (List EmailData)) (u : UserState)
    (store : List StoredEmail) (now : Nat) : UserState × List StoredEmail :=
  match fetched with
  | .error _ => (updateSyncStatus u false now, store)
  | .ok emails =>
    let saved := saveEmails emails store
    (updateSyncStatus { u with totalEmails := u.totalEmails + saved.2 } false now, saved.1)

/-- Responses of the sync route. -/
inductive SyncResponse where
  | conflict423 : SyncResponse
  | accepted : SyncResponse
  deriving Repr, DecidableEq

/-- Embeds checkSyncPermission of the auth middleware: a request while
the in-progress flag is set is answered with status 423 and the route
handler is not reached. -/
def checkSyncPermission (u : UserState) : Option SyncResponse :=
  if u.syncInProgress then some .conflict423 else none

/-- Embeds the sync route of the email routes up to the response: the
middleware guard first, then the in-progress flag is set and the
background sync is started; the returned state is the one at response
time, before the background task completes. -/
def syncRoute (u : UserState) (now : Nat) : SyncResponse × UserState :=
  match checkSyncPermission u with
  | some r => (r, u)
  | none => (.accepted, updateSyncStatus u true now)

/-- Unprocessed email row as handed to processEmails. -/
structure ProcEmail where
  id : Nat
  body : String
  bodyPlain : String
  date : JsVal

/-- Record written by markProcessed of the Email model: the processed
flag is set and the classification fields stored; the failure path
stores null classification fields and the error message. -/
structure ProcessedMark where
  id : Nat
  isTransactional : JsVal
  confidence : JsVal
  processingError : Option String

/-- Transaction document created by processEmails. -/
structure TransactionDoc where
  emailId : Nat
  userId : Nat
  amount : JsVal
  currency : JsVal
  transactionDate : JsVal
  transactionType : JsVal
  merchant : JsVal
  extractionConfidence : JsVal
  rawExtraction : JsVal

/-- Accumulated effects of processEmails: the markProcessed writes, the
saved transactions, and the number of increments applied to the
transactional-message counter of the user. -/
structure ProcessState where
  marks : List ProcessedMark
  transactions : List TransactionDoc
  counterIncrements : Nat

/-- One iteration of the processEmails loop: classify, mark processed
(with the error path storing nulls and the message), and on a truthy
transactional flag run the extraction; a transaction is created only
when the extraction value and its amount field are both truthy. After a
transaction save the source evaluates User.findByIdAndUpdate, but User
is not imported in src/routes/emails.js, so a ReferenceError is thrown
and caught by the inner handler: the counter increment never happens. -/
def processOneEmail (cfgC cfgE : Option String)
    (netC : Nat → String → Except String JsVal)
    (netE : Nat → JsVal → Except String JsVal)
    (userId : Nat) (email : ProcEmail) (st : ProcessState) : ProcessState :=
  let content : JsVal := .str (if email.bodyPlain != "" then email.bodyPlain else email.body)
  match classifyEmail cfgC content netC with
  | .error e =>
      { st with marks := st.marks ++ [⟨email.id, .nullv, .nullv, some e⟩] }
  | .ok cls =>
      let classification := cls.1
      let st :=
        { st with marks := st.marks ++
            [⟨email.id, .bool classification.isTransactional, classification.confidence, none⟩] }
      if classification.isTransactional then
        match extractTransaction cfgE content netE with
        | .error _ => st
        | .ok extraction =>
          if !(truthy extraction) then st
          else
            match getField extraction "amount" with
            | .error _ => st
            | .ok amt =>
              if !(truthy amt) then st
              else
                { st with transactions := st.transactions ++
                    [{ emailId := email.id
                       userId := userId
                       amount := amt
                       currency := jsOr (getFieldD extraction "currency") (.str "USD")
                       transactionDate := jsOr (getFieldD extraction "date") email.date
                       transactionType := jsOr (getFieldD extraction "type") (.str "other")
                       merchant := getFieldD extraction "merchant"
                       extractionConfidence := getFieldD extraction "confidence"
                       rawExtraction := extraction }] }
      else st

/-- Embeds processEmails of the email routes over its email list, with
per-email network behaviours for the two services. -/
def processEmails (cfgC cfgE : Option String)
    (netC : Nat → Nat → String → Except String JsVal)
    (netE : Nat → Nat → JsVal → Except String JsVal)
    (userId : Nat) (emails : List ProcEmail) : ProcessState :=
  (emails.enum).foldl
    (fun st p => processOneEmail cfgC cfgE (netC p.1) (netE p.1) userId p.2 st)
    ⟨[], [], 0⟩

example : decodeBase64 "YQoKCgpi" = "a\n\n\n\nb" := rfl
example : decodeBase64 "!!!" = "" := rfl
example : decodeBase64 "cGxhaW4" = "plain" := rfl

/-- C8: for the empty string and for every whitespace-only input, with
the service URL configured, the classification client returns the
degraded empty-content result (isTransactional false, confidence 0, an
empty-content error message) and issues zero network calls, whatever the
network would have answered. -/
theorem classifyEmail_empty_input_no_network (url s : String)
    (net : Nat → String → Except String JsVal) (h : jsTrim s = "") :
    classifyEmail (some url) (.str s) net = .ok (emptyContentResult, 0) := by
  by_cases hs : s = ""
  · subst hs; rfl
  · simp [classifyEmail, truthy, hs, h]
    rfl

/-- C8 witness: the three-space input is whitespace-only and
short-circuits with zero network calls. -/
theorem classifyEmail_empty_input_no_network_witness :
    jsTrim "   " = "" ∧
      classifyEmail (some "http://svc") (.str "   ") (fun _ _ => .error "down")
        = .ok (emptyContentResult, 0) :=
  ⟨rfl, classifyEmail_empty_input_no_network "http://svc" "   " (fun _ _ => .error "down") rfl⟩

/-- C3: a sync request while the in-progress flag is set is answered
with the 423 conflict and leaves the user state untouched, and after
syncEmails runs to either of its exits (fetch rejection or completed
save) the in-progress flag is false. -/
theorem sync_flag_mutual_exclusion_and_clearing :
    (∀ (u : UserState) (now : Nat), u.syncInProgress = true →
       syncRoute u now = (.conflict423, u)) ∧
    (∀ (fetched : Except String (List EmailData)) (u : UserState)
       (store : List StoredEmail) (now : Nat),
       (syncEmails fetched u store now).1.syncInProgress = false) := by
  constructor
  · intro u now h
    simp [syncRoute, checkSyncPermission, h]
  · intro fetched u store now
    cases fetched with
    | error e => simp [syncEmails, updateSyncStatus]
    | ok emails => simp [syncEmails, updateSyncStatus]

/-- C3 witness: a concrete busy user is rejected unchanged, and a
concrete failed sync ends with the flag cleared. -/
theorem sync_flag_mutual_exclusion_and_clearing_witness :
    syncRoute ⟨true, none, 0, 0⟩ 5 = (.conflict423, ⟨true, none, 0, 0⟩) ∧
    (syncEmails (.error "gmail down") ⟨true, none, 0, 0⟩ [] 5).1.syncInProgress = false :=
  ⟨sync_flag_mutual_exclusion_and_clearing.1 ⟨true, none, 0, 0⟩ 5 rfl,
   sync_flag_mutual_exclusion_and_clearing.2 (.error "gmail down") ⟨true, none, 0, 0⟩ [] 5⟩

/-- C5 counterexample: the decoded plain body of a text/plain payload
(the base64 of a1 with four newlines then b) is returned with its run of
four newlines intact, while the claim requires runs of three or more
newlines to be collapsed to exactly two; no zero-width stripping,
bracket removal, URL stripping or whitespace collapsing exists in the
source either. -/
theorem parseEmailBody_keeps_newline_runs :
    (parseEmailBody (fun s => s) (some "http://svc") (fun _ _ => .error "down")
        (.node "text/plain" (some (some "YQoKCgpi")) []) "s" "f").bodyPlain
      = "a\n\n\n\nb" ∧
    strContains "a\n\n\n\nb" "\n\n\n" = true :=
  ⟨rfl, rfl⟩

/-- C5 amended: the only post-processing parseEmailBody applies to a
decoded direct body is trimming leading and trailing whitespace: both
outputs are exactly the trim of the decoded data (the plain text going
through the convert function for non-plain MIME types), with no
character stripping or collapsing. -/
theorem parseEmailBody_postprocessing_is_trim (cv : String → String)
    (cfg : Option String) (net : Nat → String → Except String JsVal)
    (mt d : String) (sub : List PartNode) (subject sender : String) (hd : d ≠ "") :
    (parseEmailBody cv cfg net (.node mt (some (some d)) sub) subject sender).body
      = jsTrim (decodeBase64 d) ∧
    (parseEmailBody cv cfg net (.node mt (some (some d)) sub) subject sender).bodyPlain
      = jsTrim (if mt == "text/plain" then decodeBase64 d else cv (decodeBase64 d)) := by
  have hdb : (d != "") = true := by simp [hd]
  unfold parseEmailBody parseEmailBodyPair
  simp only [PartNode.bodyData, PartNode.mimeType, PartNode.parts, dataOfBody, hdb, if_true]
  generalize decodeBase64 d = dec
  by_cases hmt : (mt == "text/plain") = true
  · simp only [hmt, if_true]
    by_cases hz : dec = ""
    · subst hz
      constructor <;> simp [jsTrim] <;> rfl
    · simp [hz]
  · simp only [Bool.not_eq_true] at hmt
    simp only [hmt, if_false]
    by_cases hz : dec = ""
    · subst hz
      by_cases hcz : cv "" = ""
      · constructor <;> simp [hcz, jsTrim] <;> rfl
      · simp [hcz]
    · simp [hz]

/-- C5 amended witness: a concrete body with leading and trailing blanks
and an inner newline run is only trimmed. -/
theorem parseEmailBody_postprocessing_is_trim_witness :
    (parseEmailBody (fun s => s) (some "http://svc") (fun _ _ => .error "down")
        (.node "text/plain" (some (some "YQoKCgpi")) []) "s" "f").body
      = jsTrim (decodeBase64 "YQoKCgpi") :=
  (parseEmailBody_postprocessing_is_trim (fun s => s) (some "http://svc")
    (fun _ _ => .error "down") "text/plain" "YQoKCgpi" [] "s" "f" (by decide)).1

/-- Unit-interval test for a JNum value: 0 is at most m / 10^e is at
most 1, expressed on the mantissa. -/
def JNum.inUnitInterval (a : JNum) : Prop := 0 ≤ a.m ∧ a.m ≤ pow10 a.e

/-- C9 counterexample: the bare numeric response 2 is normalized to
confidence 2, which lies outside the unit interval that the claim
asserts for every response. -/
theorem parseClassificationResponse_confidence_outside_unit :
    (parseClassificationResponse (.num ⟨2, 0⟩)).confidence = .num ⟨2, 0⟩ ∧
    ¬ JNum.inUnitInterval ⟨2, 0⟩ :=
  ⟨rfl, by simp [JNum.inUnitInterval, pow10]⟩

/-- Degraded result of the unknown-format branch of the normalizer. -/
def unknownFormatResult (v : JsVal) : ClassResult :=
  { isTransactional := false, confidence := .num ⟨0, 0⟩,
    error := some "Unknown response format", rawResponse := some v }

/-- Degraded result of the catch handler of parseClassificationResponse. -/
def parseFailureResult (v : JsVal) : ClassResult :=
  { isTransactional := false, confidence := .num ⟨0, 0⟩,
    error := some "Response parsing failed", rawResponse := some v }

/-- Shapes recognized by the normalizer, read off the probing guards: a
non-empty array whose first element carries a truthy label and a numeric
score, an object with a truthy prediction or label field, a boolean, or
a number. -/
def recognizedShape (v : JsVal) : Bool :=
  match v with
  | .arr (p :: _) =>
    (match p with
     | .obj pkvs => truthy (objLookup pkvs "label") && jsIsNumber (objLookup pkvs "score")
     | _ => false)
  | .obj kvs => truthy (objLookup kvs "prediction") || truthy (objLookup kvs "label")
  | .bool _ => true
  | .num _ => true
  | _ => false

/-- Shapes whose probing completes without a thrown TypeError: the value
is not null or undefined, and the first element of a non-empty array is
not null or undefined. -/
def jsAccessSafe : JsVal → Bool
  | .nullv => false
  | .undef => false
  | .arr (p :: _) => (match p with | .nullv => false | .undef => false | _ => true)
  | _ => true

theorem parseCR_arrObj_hit (pkvs : List (String × JsVal)) (rest : List JsVal)
    (h : (truthy (objLookup pkvs "label") && jsIsNumber (objLookup pkvs "score")) = true) :
    parseClassificationResponse (.arr (.obj pkvs :: rest))
      = { isTransactional := isTransactionalLabel (objLookup pkvs "label"),
          confidence := objLookup pkvs "score",
          rawResponse := some (.arr (.obj pkvs :: rest)) } := by
  simp [parseClassificationResponse, parseCRInner, getField, bind, Except.bind, pure, Except.pure, h]

theorem parseCR_arrObj_miss (pkvs : List (String × JsVal)) (rest : List JsVal)
    (h : (truthy (objLookup pkvs "label") && jsIsNumber (objLookup pkvs "score")) = false) :
    parseClassificationResponse (.arr (.obj pkvs :: rest))
      = unknownFormatResult (.arr (.obj pkvs :: rest)) := by
  have h2 : ¬(truthy (objLookup pkvs "label") = true ∧ jsIsNumber (objLookup pkvs "score") = true) := by
    intro hc
    rw [hc.1, hc.2] at h
    simp at h
  simp [parseClassificationResponse, parseCRInner, getField, bind, Except.bind, pure,
    Except.pure, h2, unknownFormatResult]
  rfl

theorem parseCR_obj_pred (kvs : List (String × JsVal))
    (hp : truthy (objLookup kvs "prediction") = true) :
    parseClassificationResponse (.obj kvs)
      = { isTransactional := isTransactionalLabel (objLookup kvs "prediction"),
          confidence := jsOr (jsOr (objLookup kvs "confidence") (objLookup kvs "score"))
            (.num ⟨5, 1⟩),
          rawResponse := some (.obj kvs) } := by
  simp [parseClassificationResponse, parseCRInner, getField, bind, Except.bind, pure, Except.pure, hp]

theorem parseCR_obj_label (kvs : List (String × JsVal))
    (hp : truthy (objLookup kvs "prediction") = false)
    (hl : truthy (objLookup kvs "label") = true) :
    parseClassificationResponse (.obj kvs)
      = { isTransactional := isTransactionalLabel (objLookup kvs "label"),
          confidence := jsOr (jsOr (objLookup kvs "confidence") (objLookup kvs "score"))
            (.num ⟨5, 1⟩),
          rawResponse := some (.obj kvs) } := by
  simp [parseClassificationResponse, parseCRInner, getField, bind, Except.bind, pure, Except.pure, hp, hl]

theorem parseCR_obj_unknown (kvs : List (String × JsVal))
    (hp : truthy (objLookup kvs "prediction") = false)
    (hl : truthy (objLookup kvs "label") = false) :
    parseClassificationResponse (.obj kvs) = unknownFormatResult (.obj kvs) := by
  simp [parseClassificationResponse, parseCRInner, getField, bind, Except.bind, pure, Except.pure, hp, hl, unknownFormatResult]

/-- C9 amended: the normalizer does not bound the confidence by itself:
the confidence is exactly 0 (degraded results), 0.5 (defaults), a value
copied verbatim from the score field of the first array element, a value
copied verbatim from the confidence or score field of the response
object, or the absolute value of a bare numeric response; it therefore
lies in the unit interval exactly when those response values do, and the
recorded Message confidence inherits the same caveat. -/
theorem parseClassificationResponse_confidence_provenance (v : JsVal) :
    (parseClassificationResponse v).confidence = .num ⟨0, 0⟩ ∨
    (parseClassificationResponse v).confidence = .num ⟨5, 1⟩ ∨
    (∃ p rest, v = .arr (p :: rest) ∧
       getField p "score" = .ok ((parseClassificationResponse v).confidence)) ∨
    (∃ w, (getField v "confidence" = .ok w ∨ getField v "score" = .ok w) ∧
       (parseClassificationResponse v).confidence = w) ∨
    (∃ n, v = .num n ∧ (parseClassificationResponse v).confidence = .num n.abs) := by
  cases v with
  | str s => exact Or.inl rfl
  | num n => exact Or.inr (Or.inr (Or.inr (Or.inr ⟨n, rfl, rfl⟩)))
  | bool b => exact Or.inr (Or.inl rfl)
  | date y m d => exact Or.inl rfl
  | undef => exact Or.inl rfl
  | nullv => exact Or.inl rfl
  | arr l =>
    cases l with
    | nil => exact Or.inl rfl
    | cons p rest =>
      cases p with
      | obj pkvs =>
        by_cases h : (truthy (objLookup pkvs "label") && jsIsNumber (objLookup pkvs "score")) = true
        · refine Or.inr (Or.inr (Or.inl ⟨.obj pkvs, rest, rfl, ?_⟩))
          rw [parseCR_arrObj_hit pkvs rest h]
          rfl
        · rw [parseCR_arrObj_miss pkvs rest (by simpa using h)]
          exact Or.inl rfl
      | str s => exact Or.inl rfl
      | num n => exact Or.inl rfl
      | bool b => exact Or.inl rfl
      | date y m d => exact Or.inl rfl
      | arr l2 => exact Or.inl rfl
      | undef => exact Or.inl rfl
      | nullv => exact Or.inl rfl
  | obj kvs =>
    by_cases hp : truthy (objLookup kvs "prediction") = true
    · rw [parseCR_obj_pred kvs hp]
      by_cases hc : truthy (objLookup kvs "confidence") = true
      · exact Or.inr (Or.inr (Or.inr (Or.inl ⟨objLookup kvs "confidence", Or.inl rfl,
          by simp [jsOr, hc]⟩)))
      · by_cases hs : truthy (objLookup kvs "score") = true
        · exact Or.inr (Or.inr (Or.inr (Or.inl ⟨objLookup kvs "score", Or.inr rfl,
            by simp [jsOr, hc, hs]⟩)))
        · refine Or.inr (Or.inl ?_)
          simp [jsOr, hc, hs]
    · by_cases hl : truthy (objLookup kvs "label") = true
      · rw [parseCR_obj_label kvs (by simpa using hp) hl]
        by_cases hc : truthy (objLookup kvs "confidence") = true
        · exact Or.inr (Or.inr (Or.inr (Or.inl ⟨objLookup kvs "confidence", Or.inl rfl,
            by simp [jsOr, hc]⟩)))
        · by_cases hs : truthy (objLookup kvs "score") = true
          · exact Or.inr (Or.inr (Or.inr (Or.inl ⟨objLookup kvs "score", Or.inr rfl,
              by simp [jsOr, hc, hs]⟩)))
          · refine Or.inr (Or.inl ?_)
            simp [jsOr, hc, hs]
      · rw [parseCR_obj_unknown kvs (by simpa using hp) (by simpa using hl)]
        exact Or.inl rfl

/-- C6 counterexample: null is an unrecognized response shape, yet the
normalizer answers it with the response-parsing-failed message of its
catch handler, not the unknown-response-format message the claim assigns
to every unrecognized shape. -/
theorem parseClassificationResponse_null_not_unknown_format :
    recognizedShape .nullv = false ∧
    (parseClassificationResponse .nullv).error = some "Response parsing failed" ∧
    some "Response parsing failed" ≠ some "Unknown response format" :=
  ⟨rfl, rfl, by decide⟩

/-- C6 amended: the normalizer maps each recognized shape to the output
contract. (a) A non-empty array whose first element has a non-empty
label and a numeric score yields the keyword-mapped boolean with that
score as confidence, and the payment-receipt example yields true with
confidence 0.92. (b) An object with a non-empty prediction string, or
with a non-empty label string and no prediction, yields the
keyword-mapped boolean and, when the confidence and score fields are
absent, confidence 0.5. (c) A bare boolean yields that boolean with
confidence 0.5. (d) A bare number v yields the comparison against one
half with the absolute value of v as confidence. Every unrecognized
shape yields isTransactional false and confidence 0 with an error: the
unknown-format message when its probing completes, and the
response-parsing-failed message for the shapes (null, undefined, or an
array headed by null or undefined) whose field access throws. -/
theorem parseClassificationResponse_contract :
    (∀ (pkvs : List (String × JsVal)) (rest : List JsVal) (l : String) (sc : JNum),
       objLookup pkvs "label" = .str l → l ≠ "" → objLookup pkvs "score" = .num sc →
       parseClassificationResponse (.arr (.obj pkvs :: rest))
         = { isTransactional := isTransactionalLabel (.str l), confidence := .num sc,
             rawResponse := some (.arr (.obj pkvs :: rest)) }) ∧
    parseClassificationResponse
        (.arr [.obj [("label", .str "payment_receipt"), ("score", .num ⟨92, 2⟩)]])
      = { isTransactional := true, confidence := .num ⟨92, 2⟩,
          rawResponse := some
            (.arr [.obj [("label", .str "payment_receipt"), ("score", .num ⟨92, 2⟩)]]) } ∧
    (∀ (kvs : List (String × JsVal)) (p : String),
       objLookup kvs "prediction" = .str p → p ≠ "" →
       objLookup kvs "confidence" = .undef → objLookup kvs "score" = .undef →
       parseClassificationResponse (.obj kvs)
         = { isTransactional := isTransactionalLabel (.str p), confidence := .num ⟨5, 1⟩,
             rawResponse := some (.obj kvs) }) ∧
    (∀ (kvs : List (String × JsVal)) (l : String),
       objLookup kvs "prediction" = .undef → objLookup kvs "label" = .str l → l ≠ "" →
       objLookup kvs "confidence" = .undef → objLookup kvs "score" = .undef →
       parseClassificationResponse (.obj kvs)
         = { isTransactional := isTransactionalLabel (.str l), confidence := .num ⟨5, 1⟩,
             rawResponse := some (.obj kvs) }) ∧
    (∀ b : Bool, parseClassificationResponse (.bool b)
       = { isTransactional := b, confidence := .num ⟨5, 1⟩, rawResponse := some (.bool b) }) ∧
    (∀ n : JNum, parseClassificationResponse (.num n)
       = { isTransactional := n.gtHalf, confidence := .num n.abs, rawResponse := some (.num n) }) ∧
    (∀ v : JsVal, recognizedShape v = false → jsAccessSafe v = true →
       parseClassificationResponse v = unknownFormatResult v) ∧
    (∀ v : JsVal, jsAccessSafe v = false →
       parseClassificationResponse v = parseFailureResult v) := by
  refine ⟨?_, rfl, ?_, ?_, fun b => rfl, fun n => rfl, ?_, ?_⟩
  · intro pkvs rest l sc hl hlne hsc
    have hcond : (truthy (objLookup pkvs "label") && jsIsNumber (objLookup pkvs "score")) = true := by
      rw [hl, hsc]; simp [truthy, jsIsNumber, hlne]
    rw [parseCR_arrObj_hit pkvs rest hcond, hl, hsc]
  · intro kvs p hpr hpne hc hs
    have hp : truthy (objLookup kvs "prediction") = true := by
      rw [hpr]; simp [truthy, hpne]
    rw [parseCR_obj_pred kvs hp, hpr, hc, hs]
    rfl
  · intro kvs l hpr hlb hlne hc hs
    have hp : truthy (objLookup kvs "prediction") = false := by rw [hpr]; rfl
    have hl : truthy (objLookup kvs "label") = true := by
      rw [hlb]; simp [truthy, hlne]
    rw [parseCR_obj_label kvs hp hl, hlb, hc, hs]
    rfl
  · intro v hrec hsafe
    cases v with
    | str s => rfl
    | num n => simp [recognizedShape] at hrec
    | bool b => simp [recognizedShape] at hrec
    | date y m d => rfl
    | undef => simp [jsAccessSafe] at hsafe
    | nullv => simp [jsAccessSafe] at hsafe
    | obj kvs =>
      simp [recognizedShape] at hrec
      exact parseCR_obj_unknown kvs hrec.1 hrec.2
    | arr l =>
      cases l with
      | nil => rfl
      | cons p rest =>
        cases p with
        | obj pkvs =>
          have hb : (truthy (objLookup pkvs "label") && jsIsNumber (objLookup pkvs "score")) = false := by
            simpa [recognizedShape] using hrec
          exact parseCR_arrObj_miss pkvs rest hb
        | str s => rfl
        | num n => rfl
        | bool b => rfl
        | date y m d => rfl
        | arr l2 => rfl
        | undef => simp [jsAccessSafe] at hsafe
        | nullv => simp [jsAccessSafe] at hsafe
  · intro v hsafe
    cases v with
    | str s => simp [jsAccessSafe] at hsafe
    | num n => simp [jsAccessSafe] at hsafe
    | bool b => simp [jsAccessSafe] at hsafe
    | date y m d => simp [jsAccessSafe] at hsafe
    | obj kvs => simp [jsAccessSafe] at hsafe
    | undef => rfl
    | nullv => rfl
    | arr l =>
      cases l with
      | nil => simp [jsAccessSafe] at hsafe
      | cons p rest =>
        cases p with
        | str s => simp [jsAccessSafe] at hsafe
        | num n => simp [jsAccessSafe] at hsafe
        | bool b => simp [jsAccessSafe] at hsafe
        | date y m d => simp [jsAccessSafe] at hsafe
        | obj pkvs => simp [jsAccessSafe] at hsafe
        | arr l2 => simp [jsAccessSafe] at hsafe
        | undef => rfl
        | nullv => rfl

/-- C6 amended witness: the general array clause applied to a concrete
refund label with score 0.7. -/
theorem parseClassificationResponse_contract_witness :
    parseClassificationResponse (.arr [.obj [("label", .str "refund_note"), ("score", .num ⟨7, 1⟩)]])
      = { isTransactional := isTransactionalLabel (.str "refund_note"), confidence := .num ⟨7, 1⟩,
          rawResponse := some
            (.arr [.obj [("label", .str "refund_note"), ("score", .num ⟨7, 1⟩)]]) } :=
  parseClassificationResponse_contract.1
    [("label", .str "refund_note"), ("score", .num ⟨7, 1⟩)] [] "refund_note" ⟨7, 1⟩
    rfl (by decide) rfl

/-- Field access yields the defaulted lookup on every receiver that is
not null and not undefined. -/
theorem getField_ok (v : JsVal) (k : String) (h1 : v ≠ .nullv) (h2 : v ≠ .undef) :
    getField v k = .ok (getFieldD v k) := by
  cases v with
  | nullv => exact absurd rfl h1
  | undef => exact absurd rfl h2
  | str s => rfl
  | num n => rfl
  | bool b => rfl
  | arr l => rfl
  | obj kvs => rfl
  | date y m d => rfl

/-- Survival test of one extraction result item: its own success flag is
truthy and its parsed amount is strictly positive (parseAmount only
succeeds on positive values). -/
def keptItem (item : JsVal) : Bool :=
  truthy (getFieldD item "success") && (parseAmount (getFieldD item "final_amount")).isSome

/-- Candidate record produced for one surviving extraction result item. -/
def extractionCandidate (responseData item : JsVal) : JsVal :=
  .obj [("amount", .num ((parseAmount (getFieldD item "final_amount")).getD ⟨0, 0⟩)),
        ("date", parseDate (getFieldD item "transaction_date")),
        ("type", getFieldD item "transaction_type"),
        ("merchant", parseMerchant (getFieldD item "merchant")),
        ("rawResponse", responseData)]

theorem parseERItem_eq (resp : JsVal) (acc : List JsVal) (i : JsVal)
    (h1 : i ≠ .nullv) (h2 : i ≠ .undef) :
    parseERItem resp acc i
      = .ok (if keptItem i then acc ++ [extractionCandidate resp i] else acc) := by
  simp only [parseERItem, getField_ok i "success" h1 h2,
    getField_ok i "final_amount" h1 h2, getField_ok i "transaction_date" h1 h2,
    getField_ok i "transaction_type" h1 h2, getField_ok i "merchant" h1 h2,
    bind, Except.bind, pure, Except.pure]
  by_cases hsucc : truthy (getFieldD i "success") = true
  · simp only [hsucc, Bool.not_true, if_neg, Bool.false_eq_true, if_false]
    cases hpa : parseAmount (getFieldD i "final_amount") with
    | none => simp [keptItem, hsucc, hpa]
    | some amount => simp [keptItem, hsucc, hpa, extractionCandidate]
  · simp only [Bool.not_eq_true] at hsucc
    simp [keptItem, hsucc]

/-- Bind of a successful Except computation. -/
theorem exbind_ok {α β ε : Type} (a : α) (f : α → Except ε β) :
    (Except.ok a >>= f : Except ε β) = f a := rfl

theorem parseERItem_fold (resp : JsVal) (items : List JsVal)
    (h : ∀ i ∈ items, i ≠ .nullv ∧ i ≠ .undef) (acc : List JsVal) :
    items.foldlM (parseERItem resp) acc
      = .ok (acc ++ (items.filter keptItem).map (extractionCandidate resp)) := by
  induction items generalizing acc with
  | nil =>
    simp only [List.foldlM_nil, List.filter_nil, List.map_nil, List.append_nil]
    rfl
  | cons i rest ih =>
    have hi := h i (List.mem_cons_self i rest)
    have hrest : ∀ j ∈ rest, j ≠ .nullv ∧ j ≠ .undef :=
      fun j hj => h j (List.mem_cons_of_mem i hj)
    rw [List.foldlM_cons, parseERItem_eq resp acc i hi.1 hi.2]
    by_cases hk : keptItem i = true
    · rw [if_pos hk, exbind_ok, ih hrest]
      simp [List.filter_cons, hk]
    · simp only [Bool.not_eq_true] at hk
      rw [if_neg (by simp [hk]), exbind_ok, ih hrest]
      simp [List.filter_cons, hk]

/-- C7: for every extraction response whose top-level success flag is
true and whose results are an array of non-null items, the parser
returns exactly the candidates whose own success flag is truthy and
whose parsed amount is strictly positive, in order, silently dropping
all others; parseAmount only ever produces strictly positive values
(symbol, comma and whitespace stripping then the first numeric token);
1,234.50 dollars parses to 1234.50 (mantissa 12345, one decimal place),
the merchant Acme Inc. parses to Acme, and the full example response
yields exactly the one candidate of the spec. -/
theorem parseExtractionResponse_keeps_positive_candidates :
    (∀ (rkvs : List (String × JsVal)) (items : List JsVal),
       objLookup rkvs "success" = .bool true →
       objLookup rkvs "results" = .arr items →
       (∀ i ∈ items, i ≠ .nullv ∧ i ≠ .undef) →
       parseExtractionResponse (.obj rkvs)
         = .arr ((items.filter keptItem).map (extractionCandidate (.obj rkvs)))) ∧
    (∀ (v : JsVal) (a : JNum), parseAmount v = some a → 0 < a.m) ∧
    parseAmount (.str "$1,234.50") = some ⟨12345, 1⟩ ∧
    parseMerchant (.str "Acme Inc.") = .str "Acme" ∧
    parseExtractionResponse
        (.obj [("success", .bool true),
               ("results", .arr [.obj
                 [("success", .bool true), ("final_amount", .str "$1,234.50"),
                  ("transaction_date", .str "2024-03-01"),
                  ("transaction_type", .str "purchase"),
                  ("merchant", .str "Acme Inc.")]])])
      = .arr [.obj [("amount", .num ⟨12345, 1⟩), ("date", .date 2024 3 1),
                    ("type", .str "purchase"), ("merchant", .str "Acme"),
                    ("rawResponse",
                     .obj [("success", .bool true),
                           ("results", .arr [.obj
                             [("success", .bool true), ("final_amount", .str "$1,234.50"),
                              ("transaction_date", .str "2024-03-01"),
                              ("transaction_type", .str "purchase"),
                              ("merchant", .str "Acme Inc.")]])])]] := by
  refine ⟨?_, ?_, rfl, rfl, rfl⟩
  · intro rkvs items hsucc hres hitems
    have hs : truthy (objLookup rkvs "success") = true := by rw [hsucc]; rfl
    simp only [parseExtractionResponse, parseERInner, getField, bind, Except.bind,
      pure, Except.pure, hs, hres, Bool.not_true, if_neg, Bool.false_eq_true, if_false]
    rw [parseERItem_fold (.obj rkvs) items hitems []]
    simp
  · intro v a h
    by_cases ht : truthy v = true
    · simp only [parseAmount, ht, Bool.not_true, Bool.false_eq_true, if_false] at h
      split at h
      next tok heq =>
        split at h
        next hp =>
          simp only [Option.some.injEq] at h
          subst h
          simpa [JNum.pos] using hp
        next hp => simp at h
      next heq => simp at h
    · simp only [Bool.not_eq_true] at ht
      simp [parseAmount, ht] at h

/-- C7 witness: the general filter clause applied to the example
response with one positive and one failed candidate. -/
theorem parseExtractionResponse_keeps_positive_candidates_witness :
    parseExtractionResponse
        (.obj [("success", .bool true),
               ("results", .arr [.obj [("success", .bool false)],
                                 .obj [("success", .bool true),
                                       ("final_amount", .str "88")]])])
      = .arr [extractionCandidate
          (.obj [("success", .bool true),
                 ("results", .arr [.obj [("success", .bool false)],
                                   .obj [("success", .bool true),
                                         ("final_amount", .str "88")]])])
          (.obj [("success", .bool true), ("final_amount", .str "88")])] :=
  parseExtractionResponse_keeps_positive_candidates.1
    [("success", .bool true),
     ("results", .arr [.obj [("success", .bool false)],
                       .obj [("success", .bool true), ("final_amount", .str "88")]])]
    [.obj [("success", .bool false)],
     .obj [("success", .bool true), ("final_amount", .str "88")]]
    rfl rfl
    (by
      intro i hi
      simp only [List.mem_cons, List.not_mem_nil, or_false] at hi
      cases hi with
      | inl h => subst h; exact ⟨fun h => JsVal.noConfusion h, fun h => JsVal.noConfusion h⟩
      | inr h => subst h; exact ⟨fun h => JsVal.noConfusion h, fun h => JsVal.noConfusion h⟩)

/-- C10: the base64 decode of the Body Decoder is the lenient total Node
decode, so a leaf whose data has no alphabet character at all decodes to
the empty string instead of raising, and such an undecodable text/plain
leaf contributes nothing to the accumulated parts; and whenever the
multipart accumulation found non-empty text/plain content, the
plain-text output of parseEmailBody is that content (trimmed), never
the stripped HTML, whatever the convert function would produce. -/
theorem bodyDecoder_plain_preferred_no_throw :
    (∀ s : String,
       (∀ c ∈ s.toList, b64Idx (if c == '-' then '+' else if c == '_' then '/' else c) = none) →
       decodeBase64 s = "") ∧
    extractFromParts [.node "text/plain" (some (some "$$$$")) []] = ("", "") ∧
    (∀ (cv : String → String) (cfg : Option String)
       (net : Nat → String → Except String JsVal) (mt : String)
       (parts : List PartNode) (subject sender : String),
       parts ≠ [] →
       (extractFromParts parts).2 ≠ "" →
       (parseEmailBody cv cfg net (.node mt none parts) subject sender).bodyPlain
         = jsTrim (extractFromParts parts).2) := by
  refine ⟨?_, rfl, ?_⟩
  · intro s h
    unfold decodeBase64
    have hnil : ((s.toList.map
        (fun c => if c == '-' then '+' else if c == '_' then '/' else c)).filterMap b64Idx) = [] := by
      rw [List.filterMap_eq_nil_iff]
      intro a ha
      obtain ⟨c, hc, rfl⟩ := List.mem_map.mp ha
      exact h c hc
    simp only [hnil]
    rfl
  · intro cv cfg net mt parts subject sender hne hp2
    have hie : parts.isEmpty = false := by
      cases parts with
      | nil => exact absurd rfl hne
      | cons a l => rfl
    unfold parseEmailBody parseEmailBodyPair
    simp only [PartNode.bodyData, PartNode.parts, dataOfBody, hie, Bool.not_false, if_true]
    simp [hp2]

/-- C10 witness: a multipart payload with an HTML part and a plain part
takes its plain-text output from the plain part, even with a convert
function that would return stripped HTML. -/
theorem bodyDecoder_plain_preferred_no_throw_witness :
    (parseEmailBody (fun _ => "STRIPPED HTML") (some "http://svc") (fun _ _ => .error "down")
        (.node "multipart/alternative" none
          [.node "text/html" (some (some "PGI+aGk8L2I+")) [],
           .node "text/plain" (some (some "cGxhaW4")) []]) "s" "f").bodyPlain
      = jsTrim (extractFromParts
          [.node "text/html" (some (some "PGI+aGk8L2I+")) [],
           .node "text/plain" (some (some "cGxhaW4")) []]).2 :=
  bodyDecoder_plain_preferred_no_throw.2.2 (fun _ => "STRIPPED HTML") (some "http://svc")
    (fun _ _ => .error "down") "multipart/alternative"
    [.node "text/html" (some (some "PGI+aGk8L2I+")) [],
     .node "text/plain" (some (some "cGxhaW4")) []] "s" "f"
    (fun h => List.noConfusion h) (by decide)

/-- Classification of an object argument always throws: either the
configuration guard or, with a URL configured, the trim TypeError on the
non-string argument. -/
theorem classifyEmail_object_throws (cfg : Option String)
    (net : Nat → String → Except String JsVal) (kvs : List (String × JsVal)) :
    ∃ e, classifyEmail cfg (.obj kvs) net = .error e := by
  cases cfg with
  | none => exact ⟨"Classification service URL not configured", rfl⟩
  | some u => exact ⟨"TypeError: emailContent.trim is not a function", rfl⟩

/-- The classification value left by parseEmailBody is false on every
payload: either nothing was decoded and the undefined recursive helper
throws before the call, or classifyEmail throws on its object argument. -/
theorem parseEmailBody_never_transactional (cv : String → String) (cfg : Option String)
    (net : Nat → String → Except String JsVal) (payload : PartNode) (subject sender : String) :
    (parseEmailBody cv cfg net payload subject sender).isTransactional = .bool false := by
  unfold parseEmailBody
  by_cases hc : ((parseEmailBodyPair cv payload).1 == ""
      && (parseEmailBodyPair cv payload).2 == "") = true
  · simp only [hc, if_true]
  · simp only [Bool.not_eq_true] at hc
    simp only [hc, Bool.false_eq_true, if_false]
    obtain ⟨e, he⟩ := classifyEmail_object_throws cfg net
      [("body", .str (if (parseEmailBodyPair cv payload).2 != ""
          then (parseEmailBodyPair cv payload).2 else (parseEmailBodyPair cv payload).1)),
       ("subject", .str subject), ("sender", .str sender)]
    rw [he]

/-- Every email record assembled by fetchEmailDetails carries the false
classification value. -/
theorem fetchEmailDetails_never_transactional (cv : String → String) (cfg : Option String)
    (net : Nat → String → Except String JsVal) (now : JsVal) (message : GmailMessage) :
    (fetchEmailDetails cv cfg net now message).isTransactional = .bool false := by
  simp [fetchEmailDetails, parseEmailBody_never_transactional]

/-- The batch loop keeps nothing when every fulfilled outcome carries a
falsy transactional value. -/
theorem fetchEmailsBatchesAux_nil (fuel : Nat) (ds : List (Except String EmailData))
    (h : ∀ v : EmailData, .ok v ∈ ds → truthy v.isTransactional = false) :
    fetchEmailsBatchesAux fuel ds = [] := by
  induction fuel generalizing ds with
  | zero => rfl
  | succ fuel ih =>
    cases ds with
    | nil => rfl
    | cons d rest =>
      simp only [fetchEmailsBatchesAux]
      rw [List.append_eq_nil]
      constructor
      · rw [List.filterMap_eq_nil_iff]
        intro r hr
        cases r with
        | error e2 => rfl
        | ok v =>
          have hv := h v (List.mem_of_mem_take hr)
          simp [hv]
      · apply ih
        intro v hv
        exact h v (List.mem_cons_of_mem d (List.mem_of_mem_drop hv))

/-- Everything the batch loop returns has a truthy transactional value. -/
theorem fetchEmailsBatchesAux_mem (fuel : Nat) (ds : List (Except String EmailData))
    (e : EmailData) (he : e ∈ fetchEmailsBatchesAux fuel ds) :
    truthy e.isTransactional = true := by
  induction fuel generalizing ds with
  | zero => simp [fetchEmailsBatchesAux] at he
  | succ fuel ih =>
    cases ds with
    | nil => simp [fetchEmailsBatchesAux] at he
    | cons d rest =>
      simp only [fetchEmailsBatchesAux, List.mem_append] at he
      cases he with
      | inl hkept =>
        obtain ⟨r, hr, hfr⟩ := List.mem_filterMap.mp hkept
        cases r with
        | error e2 => simp at hfr
        | ok v =>
          by_cases ht : truthy v.isTransactional = true
          · simp only [ht, if_true, Option.some.injEq] at hfr
            subst hfr
            exact ht
          · simp only [Bool.not_eq_true] at ht
            simp [ht] at hfr
      | inr hrest => exact ih _ hrest

/-- C2: the Gmail fetch keeps only fulfilled messages whose
isTransactional value is truthy; and because parseEmailBody hands the
classifier a record instead of a string, every assembled message has a
false classification, so fetchEmails is the empty list on every input
and a sync over its result stores nothing. -/
theorem fetchEmails_returns_no_messages :
    (∀ (details : List (Except String EmailData)) (e : EmailData),
       e ∈ fetchEmailsBatches details → truthy e.isTransactional = true) ∧
    (∀ (cv : String → String) (cfg : Option String)
       (net : Nat → String → Except String JsVal) (now : JsVal)
       (msgs : List (Except String GmailMessage)),
       fetchEmails cv cfg net now msgs = []) ∧
    (∀ (cv : String → String) (cfg : Option String)
       (net : Nat → String → Except String JsVal) (now : JsVal)
       (msgs : List (Except String GmailMessage))
       (u : UserState) (store : List StoredEmail) (ts : Nat),
       (syncEmails (.ok (fetchEmails cv cfg net now msgs)) u store ts).2 = store) := by
  have hempty : ∀ (cv : String → String) (cfg : Option String)
      (net : Nat → String → Except String JsVal) (now : JsVal)
      (msgs : List (Except String GmailMessage)),
      fetchEmails cv cfg net now msgs = [] := by
    intro cv cfg net now msgs
    unfold fetchEmails fetchEmailsBatches
    apply fetchEmailsBatchesAux_nil
    intro v hv
    rw [List.mem_map] at hv
    obtain ⟨r, hr, hrv⟩ := hv
    cases r with
    | error e2 => simp [Except.map] at hrv
    | ok gm =>
      simp only [Except.map, Except.ok.injEq] at hrv
      rw [← hrv, fetchEmailDetails_never_transactional]
      rfl
  refine ⟨?_, hempty, ?_⟩
  · intro details e he
    exact fetchEmailsBatchesAux_mem _ _ _ he
  · intro cv cfg net now msgs u store ts
    rw [hempty]
    rfl

/-- Email record used by the C2 witness to exercise the truthiness
filter of the batch loop directly. -/
def fakeTransactionalEmail : EmailData :=
  { id := "m1", threadId := "", subject := "s", fromAddr := "f", toAddr := "",
    date := .date 2024 1 1, body := "b", bodyPlain := "p", labels := [],
    isTransactional := .bool true }

/-- C2 witness: the filter clause applied to a fabricated fulfilled
outcome that the batch loop keeps. -/
theorem fetchEmails_returns_no_messages_witness :
    truthy fakeTransactionalEmail.isTransactional = true :=
  fetchEmails_returns_no_messages.1 [.ok fakeTransactionalEmail] fakeTransactionalEmail
    (by
      rw [show fetchEmailsBatches [.ok fakeTransactionalEmail] = [fakeTransactionalEmail] from rfl]
      exact List.mem_singleton.mpr rfl)

/-- The persistence loop only appends: the resulting store is the old
store followed by the newly inserted rows, and the saved count is the
number of new rows. -/
theorem saveEmails_append (msgs : List EmailData) (store : List StoredEmail) :
    ∃ tail, saveEmails msgs store = (store ++ tail, tail.length) := by
  induction msgs generalizing store with
  | nil => exact ⟨[], by simp [saveEmails]⟩
  | cons d rest ih =>
    by_cases h : store.any (fun e => e.gmailId == d.id) = true
    · obtain ⟨tail, ht⟩ := ih store
      exact ⟨tail, by simp [saveEmails, h, ht]⟩
    · simp only [Bool.not_eq_true] at h
      obtain ⟨tail, ht⟩ := ih (store ++ [⟨d.id, d⟩])
      refine ⟨⟨d.id, d⟩ :: tail, ?_⟩
      simp [saveEmails, h, ht]

/-- The persistence loop is a no-op when every message id is already
stored. -/
theorem saveEmails_skip (msgs : List EmailData) (store : List StoredEmail)
    (h : ∀ m ∈ msgs, store.any (fun e => e.gmailId == m.id) = true) :
    saveEmails msgs store = (store, 0) := by
  induction msgs with
  | nil => rfl
  | cons d rest ih =>
    have hd := h d (List.mem_cons_self d rest)
    rw [show saveEmails (d :: rest) store = saveEmails rest store from by simp [saveEmails, hd]]
    exact ih (fun m hm => h m (List.mem_cons_of_mem d hm))

/-- A stored id stays stored through the persistence loop. -/
theorem saveEmails_any_mono (msgs : List EmailData) (store : List StoredEmail) (id : String)
    (h : store.any (fun e => e.gmailId == id) = true) :
    ((saveEmails msgs store).1).any (fun e => e.gmailId == id) = true := by
  obtain ⟨tail, ht⟩ := saveEmails_append msgs store
  rw [ht]
  simp only [List.any_append, h, Bool.true_or]

/-- After the persistence loop every processed message id is stored. -/
theorem saveEmails_mem (msgs : List EmailData) (store : List StoredEmail) (m : EmailData)
    (hm : m ∈ msgs) :
    ((saveEmails msgs store).1).any (fun e => e.gmailId == m.id) = true := by
  induction msgs generalizing store with
  | nil => cases hm
  | cons d rest ih =>
    by_cases h : store.any (fun e => e.gmailId == d.id) = true
    · rw [show saveEmails (d :: rest) store = saveEmails rest store from by simp [saveEmails, h]]
      cases hm with
      | head => exact saveEmails_any_mono rest store m.id h
      | tail _ hm2 => exact ih store hm2
    · simp only [Bool.not_eq_true] at h
      rw [show (saveEmails (d :: rest) store).1 = (saveEmails rest (store ++ [⟨d.id, d⟩])).1 from by
        simp [saveEmails, h]]
      cases hm with
      | head =>
        apply saveEmails_any_mono
        simp
      | tail _ hm2 => exact ih (store ++ [⟨d.id, d⟩]) hm2

/-- Count of one id in the store after the persistence loop: an id
already stored keeps its exact count (skipped, never overwritten), an id
of the processed messages that was absent is stored exactly once, and
every other id is untouched. -/
theorem saveEmails_count (msgs : List EmailData) (store : List StoredEmail) (id : String) :
    ((saveEmails msgs store).1).countP (fun e => e.gmailId == id)
      = max (store.countP (fun e => e.gmailId == id))
          (if id ∈ msgs.map (fun m => m.id) then 1 else 0) := by
  induction msgs generalizing store with
  | nil => simp [saveEmails]
  | cons d rest ih =>
    by_cases h : store.any (fun e => e.gmailId == d.id) = true
    · rw [show saveEmails (d :: rest) store = saveEmails rest store from by simp [saveEmails, h]]
      rw [ih store]
      by_cases hid : id = d.id
      · rw [← hid] at h
        have h1 : 0 < store.countP (fun e => e.gmailId == id) := by
          rcases Nat.eq_zero_or_pos (store.countP (fun e => e.gmailId == id)) with h0 | hpos
          · obtain ⟨a, ha, hpa⟩ := List.any_eq_true.mp h
            exact absurd hpa (List.countP_eq_zero.mp h0 a ha)
          · exact hpos
        have hx2 : (if id ∈ (d :: rest).map (fun m => m.id) then 1 else 0) = 1 := by
          simp [hid]
        rw [hx2]
        rw [Nat.max_eq_left h1]
        split_ifs with hmem
        · rw [Nat.max_eq_left h1]
        · rw [Nat.max_eq_left (Nat.zero_le _)]
      · have hx : (if id ∈ (d :: rest).map (fun m => m.id) then 1 else 0)
            = (if id ∈ rest.map (fun m => m.id) then 1 else 0) := by
          simp [List.map_cons, List.mem_cons, hid]
        rw [hx]
    · simp only [Bool.not_eq_true] at h
      rw [show (saveEmails (d :: rest) store).1
          = (saveEmails rest (store ++ [⟨d.id, d⟩])).1 from by simp [saveEmails, h]]
      rw [ih (store ++ [(⟨d.id, d⟩ : StoredEmail)])]
      by_cases hid : id = d.id
      · rw [← hid] at h
        have h0 : store.countP (fun e => e.gmailId == id) = 0 := by
          rw [List.countP_eq_zero]
          exact List.any_eq_false.mp h
        have hap : (store ++ [(⟨d.id, d⟩ : StoredEmail)]).countP (fun e => e.gmailId == id) = 1 := by
          rw [List.countP_append, h0]
          simp [hid]
        rw [hap, h0]
        have hx2 : (if id ∈ (d :: rest).map (fun m => m.id) then 1 else 0) = 1 := by
          simp [hid]
        rw [hx2]
        rw [Nat.max_eq_left (by split_ifs <;> omega)]
        rw [Nat.max_eq_right (by omega)]
      · have hne : d.id ≠ id := fun hh => hid hh.symm
        have hap : (store ++ [(⟨d.id, d⟩ : StoredEmail)]).countP (fun e => e.gmailId == id)
            = store.countP (fun e => e.gmailId == id) := by
          rw [List.countP_append]
          simp [hne]
        rw [hap]
        have hx : (if id ∈ (d :: rest).map (fun m => m.id) then 1 else 0)
            = (if id ∈ rest.map (fun m => m.id) then 1 else 0) := by
          simp [List.map_cons, List.mem_cons, hid]
        rw [hx]

/-- C4: sync is idempotent over the stored message set: a second
syncEmails run with the same fetched list leaves the store unchanged
and adds nothing to the total counter; a run only ever appends to the
store (duplicates are skipped, never overwritten); and each fetched
external id ends up stored exactly once when it was absent, keeping its
previous count when it was already present. -/
theorem syncEmails_idempotent_dedup :
    (∀ (msgs : List EmailData) (u : UserState) (store : List StoredEmail) (t1 t2 : Nat),
       (syncEmails (.ok msgs) (syncEmails (.ok msgs) u store t1).1
           (syncEmails (.ok msgs) u store t1).2 t2).2
         = (syncEmails (.ok msgs) u store t1).2 ∧
       (syncEmails (.ok msgs) (syncEmails (.ok msgs) u store t1).1
           (syncEmails (.ok msgs) u store t1).2 t2).1.totalEmails
         = (syncEmails (.ok msgs) u store t1).1.totalEmails) ∧
    (∀ (msgs : List EmailData) (u : UserState) (store : List StoredEmail) (t : Nat),
       ∃ tail, (syncEmails (.ok msgs) u store t).2 = store ++ tail) ∧
    (∀ (msgs : List EmailData) (u : UserState) (store : List StoredEmail) (t : Nat) (id : String),
       id ∈ msgs.map (fun m => m.id) →
       ((syncEmails (.ok msgs) u store t).2).countP (fun e => e.gmailId == id)
         = max (store.countP (fun e => e.gmailId == id)) 1) := by
  refine ⟨?_, ?_, ?_⟩
  · intro msgs u store t1 t2
    have hskip : saveEmails msgs (saveEmails msgs store).1 = ((saveEmails msgs store).1, 0) :=
      saveEmails_skip msgs _ (fun m hm => saveEmails_mem msgs store m hm)
    constructor
    · simp [syncEmails, hskip]
    · simp [syncEmails, hskip, updateSyncStatus]
  · intro msgs u store t
    obtain ⟨tail, ht⟩ := saveEmails_append msgs store
    exact ⟨tail, by simp [syncEmails, ht]⟩
  · intro msgs u store t id hid
    have hc := saveEmails_count msgs store id
    rw [if_pos hid] at hc
    simpa [syncEmails] using hc

/-- C4 witness: the exactly-once clause applied to a concrete message
list over the empty store. -/
theorem syncEmails_idempotent_dedup_witness :
    ((syncEmails (.ok [fakeTransactionalEmail]) ⟨false, none, 0, 0⟩ [] 1).2).countP
        (fun e => e.gmailId == "m1")
      = max (([] : List StoredEmail).countP (fun e => e.gmailId == "m1")) 1 :=
  syncEmails_idempotent_dedup.2.2 [fakeTransactionalEmail] ⟨false, none, 0, 0⟩ [] 1 "m1"
    (by simp [fakeTransactionalEmail])

/-- Successful results of the extraction response parser are null (falsy
top-level success) or a candidate array. -/
theorem parseERInner_shape (v w : JsVal) (h : parseERInner v = .ok w) :
    w = .nullv ∨ ∃ l, w = .arr l := by
  unfold parseERInner at h
  cases hgf : getField v "success" with
  | error e => rw [hgf] at h; cases h
  | ok sv =>
    rw [hgf, exbind_ok] at h
    by_cases hs : truthy sv = true
    · simp only [hs, Bool.not_true, Bool.false_eq_true, if_false] at h
      cases hrf : getField v "results" with
      | error e => rw [hrf] at h; cases h
      | ok rf =>
        rw [hrf, exbind_ok] at h
        cases rf with
        | arr items =>
          cases hfl : items.foldlM (parseERItem v) [] with
          | error e => simp only [hfl] at h; cases h
          | ok res =>
            simp only [hfl, exbind_ok] at h
            cases h
            exact Or.inr ⟨res, rfl⟩
        | str s => cases h
        | num n => cases h
        | bool b => cases h
        | obj kvs => cases h
        | date y m dd => cases h
        | undef => cases h
        | nullv => cases h
    · simp only [Bool.not_eq_true] at hs
      simp only [hs, Bool.not_false, if_true] at h
      cases h
      exact Or.inl rfl

/-- Every value the extraction retry loop can return fails the guard of
processEmails: it is falsy, or its amount field is a falsy value (the
null of the degraded sentinels, or undefined on the candidate array). -/
theorem extractAttempts_no_amount (net : Nat → JsVal → Except String JsVal)
    (content : JsVal) (fuel attempt : Nat) :
    truthy (extractAttempts net content fuel attempt) = false ∨
    (∃ a, getField (extractAttempts net content fuel attempt) "amount" = .ok a ∧
       truthy a = false) := by
  induction fuel generalizing attempt with
  | zero => exact Or.inl rfl
  | succ fuel ih =>
    cases hnet : net attempt content with
    | ok data =>
      rw [show extractAttempts net content (fuel + 1) attempt
          = parseExtractionResponse data from by simp [extractAttempts, hnet]]
      cases hp : parseERInner data with
      | ok w =>
        rcases parseERInner_shape data w hp with hnull | ⟨l, harr⟩
        · left
          rw [show parseExtractionResponse data = w from by
            simp [parseExtractionResponse, hp]]
          rw [hnull]
          rfl
        · right
          refine ⟨.undef, ?_, rfl⟩
          rw [show parseExtractionResponse data = w from by
            simp [parseExtractionResponse, hp], harr]
          rfl
      | error e =>
        right
        refine ⟨.nullv, ?_, rfl⟩
        rw [show parseExtractionResponse data = extractionParseFailure data from by
          simp [parseExtractionResponse, hp]]
        rfl
    | error e =>
      rw [show extractAttempts net content (fuel + 1) attempt
          = (if fuel = 0 then extractionErrorResult e
             else extractAttempts net content fuel (attempt + 1)) from by
        simp [extractAttempts, hnet]]
      by_cases hf : fuel = 0
      · subst hf
        simp only [if_true]
        exact Or.inr ⟨.nullv, rfl, rfl⟩
      · simp only [hf, if_false]
        exact ih (attempt + 1)

/-- Every successful outcome of extractTransaction fails the guard of
processEmails. -/
theorem extractTransaction_no_amount (cfg : Option String) (content : JsVal)
    (net : Nat → JsVal → Except String JsVal) (r : JsVal)
    (h : extractTransaction cfg content net = .ok r) :
    truthy r = false ∨ (∃ a, getField r "amount" = .ok a ∧ truthy a = false) := by
  cases cfg with
  | none => cases h
  | some u =>
    by_cases hc : truthy content = true
    · have heq : extractTransaction (some u) content net
          = .ok (extractAttempts net content 3 1) := by
        simp [extractTransaction, hc, pure, Except.pure]
        rfl
      rw [heq] at h
      cases h
      exact extractAttempts_no_amount net content 3 1
    · simp only [Bool.not_eq_true] at hc
      have heq : extractTransaction (some u) content net = .ok emptyExtractionResult := by
        simp [extractTransaction, hc, pure, Except.pure]
        rfl
      rw [heq] at h
      cases h
      exact Or.inr ⟨.nullv, rfl, rfl⟩

/-- One processEmails iteration records its mark but never adds a
transaction and never touches the transactional counter. -/
theorem processOneEmail_no_txn (cfgC cfgE : Option String)
    (netC : Nat → String → Except String JsVal)
    (netE : Nat → JsVal → Except String JsVal)
    (userId : Nat) (email : ProcEmail) (st : ProcessState) :
    (processOneEmail cfgC cfgE netC netE userId email st).transactions = st.transactions ∧
    (processOneEmail cfgC cfgE netC netE userId email st).counterIncrements
      = st.counterIncrements := by
  cases hcl : classifyEmail cfgC
      (.str (if email.bodyPlain != "" then email.bodyPlain else email.body)) netC with
  | error e =>
    simp only [processOneEmail, hcl]
    exact ⟨trivial, trivial⟩
  | ok cls =>
    by_cases ht : cls.1.isTransactional = true
    · simp only [processOneEmail, hcl, ht, if_true]
      cases hex : extractTransaction cfgE
          (.str (if email.bodyPlain != "" then email.bodyPlain else email.body)) netE with
      | error e => exact ⟨rfl, rfl⟩
      | ok r =>
        rcases extractTransaction_no_amount cfgE _ netE r hex with hfalsy | ⟨a, ha, hfa⟩
        · simp [hfalsy]
        · by_cases htr : truthy r = true
          · simp only [htr, Bool.not_true, Bool.false_eq_true, if_false]
            rw [ha]
            simp [hfa]
          · simp only [Bool.not_eq_true] at htr
            simp [htr]
    · simp only [Bool.not_eq_true] at ht
      simp only [processOneEmail, hcl, ht, Bool.false_eq_true, if_false]
      exact ⟨trivial, trivial⟩

/-- Extraction response of the failing input: one fully successful
candidate with a positive amount. -/
def exampleExtractionResponse : JsVal :=
  .obj [("success", .bool true),
        ("results", .arr [.obj
          [("success", .bool true), ("final_amount", .str "$1,234.50"),
           ("transaction_date", .str "2024-03-01"),
           ("transaction_type", .str "purchase"),
           ("merchant", .str "Acme Inc.")]])]

/-- Unprocessed email of the failing input. -/
def exampleProcEmail : ProcEmail :=
  { id := 1, body := "receipt body", bodyPlain := "receipt body", date := .date 2024 3 2 }

/-- C1: the Processing Orchestrator never creates a Transaction and
never increments the transactional counter, on any input whatsoever —
the guard reads the amount property of the candidate array returned by
the extraction client, which is undefined (and the counter increment
would in addition throw a ReferenceError, User not being imported). In
particular, on the failing input — a message classified transactional
whose extraction response parses to one positive candidate of amount
1234.50 — the message is marked processed as transactional with
confidence 0.9, yet no Transaction is created and the counter stays 0,
where the claim requires exactly one Transaction and one increment. -/
theorem processEmails_never_creates_transactions :
    (∀ (cfgC cfgE : Option String) (netC : Nat → Nat → String → Except String JsVal)
       (netE : Nat → Nat → JsVal → Except String JsVal) (userId : Nat)
       (emails : List ProcEmail),
       (processEmails cfgC cfgE netC netE userId emails).transactions = [] ∧
       (processEmails cfgC cfgE netC netE userId emails).counterIncrements = 0) ∧
    parseExtractionResponse exampleExtractionResponse
      = .arr [.obj [("amount", .num ⟨12345, 1⟩), ("date", .date 2024 3 1),
                    ("type", .str "purchase"), ("merchant", .str "Acme"),
                    ("rawResponse", exampleExtractionResponse)]] ∧
    (processEmails (some "http://classify") (some "http://extract")
        (fun _ _ _ => .ok (.arr [.obj [("label", .str "payment"), ("score", .num ⟨9, 1⟩)]]))
        (fun _ _ _ => .ok exampleExtractionResponse) 7 [exampleProcEmail]).transactions = [] ∧
    (processEmails (some "http://classify") (some "http://extract")
        (fun _ _ _ => .ok (.arr [.obj [("label", .str "payment"), ("score", .num ⟨9, 1⟩)]]))
        (fun _ _ _ => .ok exampleExtractionResponse) 7 [exampleProcEmail]).counterIncrements
      = 0 ∧
    (processEmails (some "http://classify") (some "http://extract")
        (fun _ _ _ => .ok (.arr [.obj [("label", .str "payment"), ("score", .num ⟨9, 1⟩)]]))
        (fun _ _ _ => .ok exampleExtractionResponse) 7 [exampleProcEmail]).marks
      = [⟨1, .bool true, .num ⟨9, 1⟩, none⟩] := by
  refine ⟨?_, rfl, rfl, rfl, rfl⟩
  intro cfgC cfgE netC netE userId emails
  have hfold : ∀ (l : List (Nat × ProcEmail)) (st : ProcessState),
      (l.foldl (fun st p => processOneEmail cfgC cfgE (netC p.1) (netE p.1) userId p.2 st)
        st).transactions = st.transactions ∧
      (l.foldl (fun st p => processOneEmail cfgC cfgE (netC p.1) (netE p.1) userId p.2 st)
        st).counterIncrements = st.counterIncrements := by
    intro l
    induction l with
    | nil => exact fun st => ⟨rfl, rfl⟩
    | cons p rest ih =>
      intro st
      rw [List.foldl_cons]
      obtain ⟨h1, h2⟩ := ih (processOneEmail cfgC cfgE (netC p.1) (netE p.1) userId p.2 st)
      obtain ⟨g1, g2⟩ := processOneEmail_no_txn cfgC cfgE (netC p.1) (netE p.1) userId p.2 st
      exact ⟨h1.trans g1, h2.trans g2⟩
  exact hfold emails.enum ⟨[], [], 0⟩
